import Mathlib

/-!
Verification of the MiniJava-to-MIPS compiler pipeline
(`mips_to_binary.py`, `minijava_parser.py`, `minijava_semantic.py`,
`minijava_codegen.py`) against its specification.

The Python source is shallowly embedded: each Python function becomes a
Lean definition of the same name (where legal); Python `str` operations
are modelled by explicit `List Char` recursions; Python exceptions become
`Except`, distinguishing `ValueError` (caught by the assembler's pass
two) from `KeyError` (uncaught); Python integers are `Int`, and the
fixed-width binary strings produced by the assembler are represented by
their base-2 numeric value, exactly the value `int(binary, 2)` that
`pass_two` computes (field values are below their field widths, so the
packing is the string concatenation read in base 2).
-/

/-- Python exception kinds relevant to the assembler: `pass_two` catches
`ValueError` but not `KeyError` (raised by `LABELS[label]`). -/
inductive PyErr where
  | valueError (msg : String)
  | keyError (key : String)
deriving DecidableEq, Repr

instance {ε α : Type} [DecidableEq ε] [DecidableEq α] : DecidableEq (Except ε α) := fun a b =>
  match a, b with
  | .ok x, .ok y => decidable_of_iff (x = y) (by simp)
  | .error x, .error y => decidable_of_iff (x = y) (by simp)
  | .ok _, .error _ => isFalse (by simp)
  | .error _, .ok _ => isFalse (by simp)

/-- Python `int(s)` on an optionally `-`-signed decimal numeral
(the only shapes that reach `int()` in this pipeline). -/
def pyDigits : List Char → Option Nat
  | [] => none
  | c :: cs =>
    if c.isDigit then
      match cs with
      | [] => some (c.toNat - '0'.toNat)
      | _ :: _ => (pyDigits cs).map (fun n => (c.toNat - '0'.toNat) * 10 ^ cs.length + n)
    else none

/-- Python `int(s)` for a string: optional leading minus then digits. -/
def pyInt (s : String) : Option Int :=
  match s.toList with
  | [] => none
  | c :: cs =>
    if c = '-' then
      match pyDigits cs with
      | none => none
      | some n => some (-(n : Int))
    else
      match pyDigits (c :: cs) with
      | none => none
      | some n => some ((n : Int))

/-- Python `s.split("#")[0]`: everything before the first `#`. -/
def stripComment (s : String) : String :=
  String.mk (s.toList.takeWhile (fun c => c ≠ '#'))

/-- Python `s.strip()`: drop leading and trailing whitespace. -/
def pyStrip (s : String) : String :=
  String.mk ((((s.toList.dropWhile Char.isWhitespace).reverse).dropWhile Char.isWhitespace).reverse)

/-- Python `s.strip(c)` for a single character `c`: drop leading and
trailing occurrences of `c`. -/
def pyStripChar (c : Char) (s : String) : String :=
  String.mk ((((s.toList.dropWhile (fun x => x = c)).reverse).dropWhile (fun x => x = c)).reverse)

/-- Python `s.split()` (no argument): split on whitespace runs, no empties. -/
def pySplitWsAux : List Char → List Char → List String
  | [], acc => if acc.isEmpty then [] else [String.mk acc.reverse]
  | c :: cs, acc =>
    if c.isWhitespace then
      if acc.isEmpty then pySplitWsAux cs [] else String.mk acc.reverse :: pySplitWsAux cs []
    else pySplitWsAux cs (c :: acc)

/-- Python `s.split()` on a string. -/
def pySplitWs (s : String) : List String := pySplitWsAux s.toList []

/-- Python `pre in s`-style `s.startswith(pre)`. -/
def pyStartsWith (s pre : String) : Bool := pre.toList.isPrefixOf s.toList

/-- Lookup in a Python dict literal given as an association list. -/
def lookupA : List (String × Nat) → String → Option Nat
  | [], _ => none
  | (k, v) :: rest, s => if s = k then some v else lookupA rest s

/-- The entries of the `OPCODES` dict of `mips_to_binary.py`
(the 6-bit binary strings read as numbers). -/
def OPCODES_LIST : List (String × Nat) :=
  [("add", 0), ("sub", 0), ("and", 0), ("or", 0), ("slt", 0),
   ("lw", 35), ("sw", 43), ("addi", 8), ("beq", 4), ("bne", 5),
   ("j", 2), ("jal", 3), ("mul", 28), ("syscall", 0), ("addiu", 9), ("jr", 0)]

/-- The `OPCODES` dict as a lookup function. -/
def OPCODES (i : String) : Option Nat := lookupA OPCODES_LIST i

/-- The entries of the `FUNCT_CODES` dict. -/
def FUNCT_CODES_LIST : List (String × Nat) :=
  [("add", 32), ("sub", 34), ("and", 36), ("or", 37),
   ("slt", 42), ("jr", 8), ("mul", 2)]

/-- The `FUNCT_CODES` dict as a lookup function. -/
def FUNCT_CODES (i : String) : Option Nat := lookupA FUNCT_CODES_LIST i

/-- The entries of the `REGISTER_MAP` dict: register name to 5-bit
code.  Note that `"$sp"` and `"$a0"` are both mapped to `"00100"`
(= 4). -/
def REGISTER_MAP_LIST : List (String × Nat) :=
  [("$zero", 0), ("$t0", 8), ("$t1", 9), ("$t2", 10), ("$t3", 11),
   ("$s0", 16), ("$s1", 17), ("$s2", 18), ("$s3", 19), ("$a0", 4),
   ("$v0", 2), ("$ra", 31), ("$sp", 4), ("$fp", 30)]

/-- The `REGISTER_MAP` dict as a lookup function. -/
def REGISTER_MAP (r : String) : Option Nat := lookupA REGISTER_MAP_LIST r

/-- `parse_register`: strip commas, look up in `REGISTER_MAP`,
`ValueError` when unmapped. -/
def parse_register (reg : String) : Except PyErr Nat :=
  match REGISTER_MAP (pyStripChar ',' reg) with
  | none => .error (.valueError ("Unsupported register: " ++ pyStripChar ',' reg))
  | some code => .ok code

/-- The range-check-and-mask part of `parse_immediate`, applied to the
already-converted integer: rejects values outside the signed `bits`-wide
range and otherwise returns `val & ((1 << bits) - 1)`, i.e. `val`
modulo `2^bits`.  (`translate_line` invokes this directly on the branch
offset via `parse_immediate(str(offset), 16)`: `int(str(offset))` is
`offset` again.) -/
def parse_immediate_int (val : Int) (bits : Nat) : Except PyErr Nat :=
  if val < -(2 ^ (bits - 1) : Int) ∨ (2 ^ (bits - 1) : Int) ≤ val then
    .error (.valueError ("Immediate value out of range for " ++ toString bits ++ "-bit representation."))
  else .ok (val % (2 ^ bits : Int)).toNat

/-- `parse_immediate`: `int(imm)` then range-check and mask. -/
def parse_immediate (imm : String) (bits : Nat) : Except PyErr Nat :=
  match pyInt imm with
  | none => .error (.valueError ("Invalid immediate value: " ++ imm))
  | some val => parse_immediate_int val bits

/-- Python `offset_reg.split("(")` unpacked into exactly two pieces:
`some (before, after)` when the string has exactly one `'('`, otherwise
`none` (the unpacking `offset, reg = ...` raises `ValueError`). -/
def splitParen : List Char → Option (List Char × List Char)
  | [] => none
  | c :: cs =>
    if c = '(' then (if '(' ∈ cs then none else some ([], cs))
    else (splitParen cs).map (fun p => (c :: p.1, p.2))

/-- `parse_offset`: split `off(reg)` at `'('`, parse the offset as a
16-bit immediate and the `')'`-stripped register name. -/
def parse_offset (offset_reg : String) : Except PyErr (Nat × Nat) :=
  match splitParen offset_reg.toList with
  | none => .error (.valueError "values to unpack")
  | some (o, r) =>
    match parse_immediate (String.mk o) 16 with
    | .error e => .error e
    | .ok off =>
      match parse_register (pyStripChar ')' (String.mk r)) with
      | .error e => .error e
      | .ok reg => .ok (off, reg)

/-- `r_type_to_binary`: `opcode rs rt rd shamt=0 funct`, with `rt`/`rd`
replaced by `00000` when the argument is falsy (empty). -/
def r_type_to_binary (instr rs rt rd : String) : Except PyErr Nat :=
  match OPCODES instr with
  | none => .error (.keyError instr)
  | some opcode =>
    match parse_register rs with
    | .error e => .error e
    | .ok rs_bin =>
      match (if rt ≠ "" then parse_register rt else .ok 0) with
      | .error e => .error e
      | .ok rt_bin =>
        match (if rd ≠ "" then parse_register rd else .ok 0) with
        | .error e => .error e
        | .ok rd_bin =>
          match FUNCT_CODES instr with
          | none => .error (.keyError instr)
          | some funct =>
            .ok (opcode * 2 ^ 26 + rs_bin * 2 ^ 21 + rt_bin * 2 ^ 16 + rd_bin * 2 ^ 11 + funct)

/-- `i_type_to_binary`: `opcode rs rt imm16`. -/
def i_type_to_binary (instr rs rt imm : String) : Except PyErr Nat :=
  match OPCODES instr with
  | none => .error (.keyError instr)
  | some opcode =>
    match parse_register rs with
    | .error e => .error e
    | .ok rs_bin =>
      match parse_register rt with
      | .error e => .error e
      | .ok rt_bin =>
        match parse_immediate imm 16 with
        | .error e => .error e
        | .ok i => .ok (opcode * 2 ^ 26 + rs_bin * 2 ^ 21 + rt_bin * 2 ^ 16 + i)

/-- `parse_address`: 26-bit address field (`format(int(addr), "026b")`).
Out-of-range values would make the later `int(binary, 2)` fail or
overflow the 32-bit word; they never occur and are mapped to
`ValueError`. -/
def parse_address (addr : Int) : Except PyErr Nat :=
  if 0 ≤ addr ∧ addr < 2 ^ 26 then .ok addr.toNat
  else .error (.valueError "address out of range")

/-- `j_type_to_binary`: `opcode address26`. -/
def j_type_to_binary (instr : String) (address : Int) : Except PyErr Nat :=
  match OPCODES instr with
  | none => .error (.keyError instr)
  | some opcode =>
    match parse_address address with
    | .error e => .error e
    | .ok a => .ok (opcode * 2 ^ 26 + a)

/-- Label table: Python dict `LABELS`, label name to byte address. -/
def LabelMap := String → Option Int

/-- The empty label table. -/
def emptyLabels : LabelMap := fun _ => none

/-- Dict assignment `LABELS[k] = v`. -/
def labelInsert (k : String) (v : Int) (m : LabelMap) : LabelMap :=
  fun x => if x = k then some v else m x

/-- The computation of the `binary` encoding inside `translate_line`'s
`if instr in OPCODES` branch: the nested `if instr in FUNCT_CODES` /
`elif` dispatch of lines 80-116 of `mips_to_binary.py` (`line` is used
only in error messages; `opcode` is the already looked-up
`OPCODES[instr]`). -/
def translate_binary (labels : LabelMap) (addr : Int) (line instr : String)
    (opcode : Nat) (rest : List String) : Except PyErr Nat :=
  match FUNCT_CODES instr with
  | some funct =>
    if instr = "jr" then
      match rest with
      | [r1] =>
        (match parse_register r1 with
        | .error e => .error e
        | .ok rs => .ok (opcode * 2 ^ 26 + rs * 2 ^ 21 + funct))
      | _ => .error (.valueError ("R-type instruction '" ++ line ++ "' is missing or has extra operands."))
    else
      match rest with
      | r1 :: r2 :: r3 :: _ => r_type_to_binary instr r2 r3 r1
      | _ => .error (.valueError ("R-type instruction '" ++ line ++ "' is missing operands."))
  | none =>
    if instr = "lw" ∨ instr = "sw" then
      match rest with
      | r1 :: r2 :: _ =>
        (match parse_register r1 with
        | .error e => .error e
        | .ok rt =>
          match parse_offset r2 with
          | .error e => .error e
          | .ok ob => .ok (opcode * 2 ^ 26 + ob.2 * 2 ^ 21 + rt * 2 ^ 16 + ob.1))
      | _ => .error (.valueError ("I-type instruction '" ++ line ++ "' is missing operands."))
    else if instr = "addi" ∨ instr = "addiu" ∨ instr = "beq" ∨ instr = "bne" then
      match rest with
      | r1 :: r2 :: x :: _ =>
        (match parse_register r2 with
        | .error e => .error e
        | .ok rs =>
          match parse_register r1 with
          | .error e => .error e
          | .ok rt =>
            match (if instr = "beq" ∨ instr = "bne" then
                match labels x with
                | none => .error (.keyError x)
                | some a => parse_immediate_int ((a - (addr + 4)).fdiv 4) 16
              else parse_immediate x 16) with
            | .error e => .error e
            | .ok imm => .ok (opcode * 2 ^ 26 + rs * 2 ^ 21 + rt * 2 ^ 16 + imm))
      | _ => .error (.valueError ("I-type instruction '" ++ line ++ "' is missing operands."))
    else if instr = "j" ∨ instr = "jal" then
      match rest with
      | l :: _ =>
        (match labels l with
        | none => .error (.keyError l)
        | some a => j_type_to_binary instr (a.fdiv 4))
      | _ => .error (.valueError ("J-type instruction '" ++ line ++ "' is missing operands."))
    else if instr = "syscall" then
      .ok 12
    else
      .error (.valueError ("Unknown instruction: " ++ instr))

/-- The body of `translate_line` from the point where the stripped line
has been split into whitespace-separated `parts` (`line` retained for
error messages only).  Returns the encoded word (the value of the
32-character binary string) together with the updated `ADDRESS_COUNTER`.
The counter is advanced by 4 only after a successful encoding, exactly
as in the source where the exception aborts before `ADDRESS_COUNTER += 4`. -/
def translateParts (labels : LabelMap) (addr : Int) (line : String) :
    List String → Except PyErr (Option Nat × Int)
  | [] => .ok (none, addr)
  | instr :: rest =>
    if instr ≠ "syscall" ∧ rest.length < 1 then
      .error (.valueError ("Instruction '" ++ line ++ "' is missing operands."))
    else match OPCODES instr with
    | some opcode =>
      (match translate_binary labels addr line instr opcode rest with
      | .error e => .error e
      | .ok binary => .ok (some binary, addr + 4))
    | none =>
      if instr = "li" ∨ instr = "move" then
        match rest with
        | p1 :: p2 :: _ =>
          (match (if instr = "li" then i_type_to_binary "addi" "$zero" p1 p2
              else r_type_to_binary "add" p2 "$zero" p1) with
          | .error e => .error e
          | .ok binary => .ok (some binary, addr + 4))
        | _ => .error (.valueError ("Pseudoinstruction '" ++ line ++ "' is missing operands."))
      else .error (.valueError ("Unknown instruction: " ++ instr))

/-- `translate_line`: strip the comment and surrounding whitespace,
return `None` for a blank line, otherwise translate the split parts. -/
def translate_line (labels : LabelMap) (addr : Int) (line : String) :
    Except PyErr (Option Nat × Int) :=
  let s := pyStrip (stripComment line)
  if s = "" then .ok (none, addr)
  else translateParts labels addr s (pySplitWs s)

/-- Value stored in the `DATA_SECTION` dict: `.word` integers or
`.asciiz` strings. -/
inductive DataVal where
  | word (n : Int)
  | asciiz (s : String)
deriving DecidableEq, Repr

/-- `DATA_SECTION` dict. -/
def DataMap := String → Option DataVal

/-- The empty data table. -/
def emptyData : DataMap := fun _ => none

/-- Dict assignment `DATA_SECTION[k] = v`. -/
def dataInsert (k : String) (v : DataVal) (m : DataMap) : DataMap :=
  fun x => if x = k then some v else m x

/-- Python `sep.join(parts)`. -/
def pyJoin (sep : String) : List String → String
  | [] => ""
  | [x] => x
  | x :: xs => x ++ sep ++ pyJoin sep xs

/-- The assembler's global state as seen by `pass_one`: `LABELS`,
`DATA_SECTION`, `IN_DATA_SECTION`, `ADDRESS_COUNTER` (in this order). -/
structure PassOneState where
  labels : LabelMap
  data : DataMap
  in_data : Bool
  addr : Int

/-- One iteration of the `pass_one` loop on a raw input line. -/
def pass_one_line (st : PassOneState) (rawLine : String) : Except PyErr PassOneState :=
  let line := pyStrip (stripComment rawLine)
  if line = "" then .ok st
  else if pyStartsWith line ".data" then .ok ⟨st.labels, st.data, true, st.addr⟩
  else if pyStartsWith line ".text" then .ok ⟨st.labels, st.data, false, st.addr⟩
  else if pyStartsWith line ".globl" then .ok st
  else if st.in_data then
    match pySplitWs line with
    | p0 :: p1 :: p2 :: prest =>
      let label := pyStripChar ':' p0
      let value := pyJoin " " (p2 :: prest)
      if p1 = ".word" then
        match pyInt value with
        | none => .error (.valueError ("invalid literal for int(): " ++ value))
        | some n => .ok ⟨st.labels, dataInsert label (.word n) st.data, st.in_data, st.addr⟩
      else if p1 = ".asciiz" then
        .ok ⟨st.labels, dataInsert label (.asciiz (pyStripChar '"' value)) st.data, st.in_data, st.addr⟩
      else .ok st
    | _ => .ok st
  else if ':' ∈ line.toList then
    .ok ⟨labelInsert (String.mk (line.toList.takeWhile (fun c => c ≠ ':'))) st.addr st.labels,
         st.data, st.in_data, st.addr⟩
  else .ok ⟨st.labels, st.data, st.in_data, st.addr + 4⟩

/-- The `pass_one` loop over the remaining input lines. -/
def pass_one_lines : PassOneState → List String → Except PyErr PassOneState
  | st, [] => .ok st
  | st, l :: ls =>
    match pass_one_line st l with
    | .error e => .error e
    | .ok st' => pass_one_lines st' ls

/-- `pass_one`: resets `ADDRESS_COUNTER` to 0 and `IN_DATA_SECTION` to
false, but does NOT clear `LABELS` or `DATA_SECTION` (they are module
globals that the function only ever inserts into). -/
def pass_one (labels : LabelMap) (data : DataMap) (lines : List String) :
    Except PyErr PassOneState :=
  pass_one_lines ⟨labels, data, false, 0⟩ lines

/-- The `pass_two` loop: skips blank/directive/label lines, translates
the rest; a `ValueError` is caught, reported and the line skipped
(`ADDRESS_COUNTER` unchanged, since the exception aborts `translate_line`
before the increment); a `KeyError` is NOT caught and aborts the loop,
leaving the words already written in the output file. -/
def pass_two_lines (labels : LabelMap) : Int → List String → List Nat × Option PyErr
  | _, [] => ([], none)
  | addr, l :: ls =>
    let line := pyStrip (stripComment l)
    if line = "" ∨ pyStartsWith line "." ∨ ':' ∈ line.toList then
      pass_two_lines labels addr ls
    else
      match translate_line labels addr line with
      | .ok (some w, a) =>
        (w :: (pass_two_lines labels a ls).1, (pass_two_lines labels a ls).2)
      | .ok (none, a) => pass_two_lines labels a ls
      | .error (.valueError _) => pass_two_lines labels addr ls
      | .error (.keyError k) => ([], some (.keyError k))

/-- `pass_two`: `ADDRESS_COUNTER` is reset to 0, then the lines are
processed; the result is the list of 32-bit words written to the output
file, paired with the uncaught exception if one aborted the loop. -/
def pass_two (labels : LabelMap) (lines : List String) : List Nat × Option PyErr :=
  pass_two_lines labels 0 lines

/-- Reinterpret the low `bits` of a word as a signed two's-complement
value. -/
def toSigned (bits : Nat) (v : Nat) : Int :=
  if v < 2 ^ (bits - 1) then (v : Int) else (v : Int) - 2 ^ bits

/-- Exchange every occurrence of the register names `$sp` and `$a0` in
one whitespace-separated operand token, in the three syntactic positions
where a register name can occur in an accepted instruction line: as the
whole token, as the token minus a trailing comma, and as the base
register of an `offset(reg)` operand. -/
def swapTok (t : String) : String :=
  if t = "$sp" then "$a0" else if t = "$a0" then "$sp"
  else if t = "$sp," then "$a0," else if t = "$a0," then "$sp,"
  else match splitParen t.toList with
  | some (o, r) =>
    if r = "$sp)".toList then String.mk (o ++ '(' :: "$a0)".toList)
    else if r = "$a0)".toList then String.mk (o ++ '(' :: "$sp)".toList)
    else t
  | none => t

/-- A scanner token: `(type, lexeme)`, as produced by
`MiniJavaScanner.tokenize`. -/
abbrev Token := String × String

/-- The AST nodes built by `MiniJavaParserLL1`'s expression productions
(the `"type"` strings of the source dicts become constructors).  In
`methodCall`, `arguments = none` models the source's bare `[]` list
(a zero-argument call never runs `parse_exps`), and `some e` the
`ExpressionList` node. -/
inductive MJPExpr where
  | booleanLiteral (value : Bool)
  | number (value : Int)
  | nullLiteral
  | newArray (element_type : String) (size : MJPExpr)
  | identifier (name : String)
  | thisExpr
  | newObject (class_name : String)
  | methodCall (target : MJPExpr) (method_name : String) (arguments : Option MJPExpr)
  | fieldAccess (target : MJPExpr) (field_name : String)
  | arrayAccess (array : MJPExpr) (index : MJPExpr)
  | logicalAnd (left right : MJPExpr)
  | relationalOp (operator : String) (left right : MJPExpr)
  | arithmeticOp (operator : String) (left right : MJPExpr)
  | expressionList (expressions : List MJPExpr)

/-- `MiniJavaParserLL1.current_token`: the token at the cursor, `None`
past the end. -/
def current_token (tokens : List Token) (i : Nat) : Option Token :=
  tokens.get? i

/-- `MiniJavaParserLL1.consume`: checks the optional expected type and
value against the current token, fails with a `ParserError` on
mismatch or end of input, otherwise returns the token and advances the
cursor. -/
def consume (tokens : List Token) (i : Nat) (expected_type expected_value : Option String) :
    Except String (Token × Nat) :=
  match current_token tokens i with
  | none => .error "Unexpected end of input"
  | some tok =>
    match expected_type with
    | some ty =>
      if tok.1 ≠ ty then
        .error ("Expected token type " ++ ty ++ ", but got " ++ tok.1 ++ " : " ++ tok.2)
      else
        match expected_value with
        | some v =>
          if tok.2 ≠ v then .error ("Expected token value " ++ v ++ ", but got " ++ tok.2)
          else .ok (tok, i + 1)
        | none => .ok (tok, i + 1)
    | none =>
      match expected_value with
      | some v =>
        if tok.2 ≠ v then .error ("Expected token value " ++ v ++ ", but got " ++ tok.2)
        else .ok (tok, i + 1)
      | none => .ok (tok, i + 1)

mutual

/-- `parse_expression`: `EXP -> REXP {&& REXP}` (the trailing loop is
`parse_expression_loop`).  All parser functions carry a fuel argument
modelling the Python call stack; every input consumed in this
development stays far below the supplied fuel. -/
def parse_expression (tokens : List Token) : Nat → Nat → Except String (MJPExpr × Nat)
  | 0, _ => .error "RecursionError"
  | fuel + 1, i =>
    match parse_rexp tokens fuel i with
    | .error e => .error e
    | .ok (left, j) => parse_expression_loop tokens fuel left j

/-- The `while ... == "&&"` left-fold of `parse_expression`. -/
def parse_expression_loop (tokens : List Token) : Nat → MJPExpr → Nat → Except String (MJPExpr × Nat)
  | 0, _, _ => .error "RecursionError"
  | fuel + 1, left, i =>
    match current_token tokens i with
    | some tok =>
      if tok.2 = "&&" then
        match consume tokens i (some "OPERATOR") (some "&&") with
        | .error e => .error e
        | .ok (_, j) =>
          match parse_rexp tokens fuel j with
          | .error e => .error e
          | .ok (right, k) => parse_expression_loop tokens fuel (.logicalAnd left right) k
      else .ok (left, i)
    | none => .ok (left, i)

/-- `parse_rexp`: `REXP -> AEXP {(< | == | !=) AEXP}` — note that the
source's relational loop tests only `{"<", "==", "!="}`. -/
def parse_rexp (tokens : List Token) : Nat → Nat → Except String (MJPExpr × Nat)
  | 0, _ => .error "RecursionError"
  | fuel + 1, i =>
    match parse_aexp tokens fuel i with
    | .error e => .error e
    | .ok (left, j) => parse_rexp_loop tokens fuel left j

/-- The `while ... in {"<", "==", "!="}` left-fold of `parse_rexp`,
building a `RelationalOp` node per iteration. -/
def parse_rexp_loop (tokens : List Token) : Nat → MJPExpr → Nat → Except String (MJPExpr × Nat)
  | 0, _, _ => .error "RecursionError"
  | fuel + 1, left, i =>
    match current_token tokens i with
    | some tok =>
      if tok.2 = "<" ∨ tok.2 = "==" ∨ tok.2 = "!=" then
        match consume tokens i (some "OPERATOR") none with
        | .error e => .error e
        | .ok (optok, j) =>
          match parse_aexp tokens fuel j with
          | .error e => .error e
          | .ok (right, k) =>
            parse_rexp_loop tokens fuel (.relationalOp optok.2 left right) k
      else .ok (left, i)
    | none => .ok (left, i)

/-- `parse_aexp`: `AEXP -> MEXP {(+ | -) MEXP}`. -/
def parse_aexp (tokens : List Token) : Nat → Nat → Except String (MJPExpr × Nat)
  | 0, _ => .error "RecursionError"
  | fuel + 1, i =>
    match parse_mexp tokens fuel i with
    | .error e => .error e
    | .ok (left, j) => parse_aexp_loop tokens fuel left j

/-- The `while ... in {"+", "-"}` left-fold of `parse_aexp`. -/
def parse_aexp_loop (tokens : List Token) : Nat → MJPExpr → Nat → Except String (MJPExpr × Nat)
  | 0, _, _ => .error "RecursionError"
  | fuel + 1, left, i =>
    match current_token tokens i with
    | some tok =>
      if tok.2 = "+" ∨ tok.2 = "-" then
        match consume tokens i (some "OPERATOR") none with
        | .error e => .error e
        | .ok (optok, j) =>
          match parse_mexp tokens fuel j with
          | .error e => .error e
          | .ok (right, k) =>
            parse_aexp_loop tokens fuel (.arithmeticOp optok.2 left right) k
      else .ok (left, i)
    | none => .ok (left, i)

/-- `parse_mexp`: `MEXP -> SEXP {* SEXP}`. -/
def parse_mexp (tokens : List Token) : Nat → Nat → Except String (MJPExpr × Nat)
  | 0, _ => .error "RecursionError"
  | fuel + 1, i =>
    match parse_sexp tokens fuel i with
    | .error e => .error e
    | .ok (left, j) => parse_mexp_loop tokens fuel left j

/-- The `while ... == "*"` left-fold of `parse_mexp`. -/
def parse_mexp_loop (tokens : List Token) : Nat → MJPExpr → Nat → Except String (MJPExpr × Nat)
  | 0, _, _ => .error "RecursionError"
  | fuel + 1, left, i =>
    match current_token tokens i with
    | some tok =>
      if tok.2 = "*" then
        match consume tokens i (some "OPERATOR") (some "*") with
        | .error e => .error e
        | .ok (_, j) =>
          match parse_sexp tokens fuel j with
          | .error e => .error e
          | .ok (right, k) =>
            parse_mexp_loop tokens fuel (.arithmeticOp "*" left right) k
      else .ok (left, i)
    | none => .ok (left, i)

/-- `parse_sexp`: literals, `new int '[' EXP ']'`, parenthesized
expressions, otherwise `PEXP`.  A missing current token makes the
source crash on `token[1]` (`TypeError`), and `new` as the last token
crashes indexing `tokens[i+1]` (`IndexError`); both become errors. -/
def parse_sexp (tokens : List Token) : Nat → Nat → Except String (MJPExpr × Nat)
  | 0, _ => .error "RecursionError"
  | fuel + 1, i =>
    match current_token tokens i with
    | none => .error "TypeError: NoneType is not subscriptable"
    | some token =>
      if token.2 = "true" ∨ token.2 = "false" then
        match consume tokens i (some "RESERVED") none with
        | .error e => .error e
        | .ok (_, j) => .ok (.booleanLiteral (token.2 = "true"), j)
      else if token.1 = "NUMBER" then
        match consume tokens i (some "NUMBER") none with
        | .error e => .error e
        | .ok (_, j) =>
          match pyInt token.2 with
          | none => .error ("invalid literal for int(): " ++ token.2)
          | some n => .ok (.number n, j)
      else if token.2 = "null" then
        match consume tokens i (some "RESERVED") (some "null") with
        | .error e => .error e
        | .ok (_, j) => .ok (.nullLiteral, j)
      else if token.2 = "new" then
        match tokens.get? (i + 1) with
        | none => .error "IndexError: list index out of range"
        | some t2 =>
          if t2.2 = "int" then
            match consume tokens i (some "RESERVED") (some "new") with
            | .error e => .error e
            | .ok (_, j1) =>
              match consume tokens j1 (some "RESERVED") (some "int") with
              | .error e => .error e
              | .ok (_, j2) =>
                match consume tokens j2 (some "PUNCTUATION") (some "[") with
                | .error e => .error e
                | .ok (_, j3) =>
                  match parse_expression tokens fuel j3 with
                  | .error e => .error e
                  | .ok (size, j4) =>
                    match consume tokens j4 (some "PUNCTUATION") (some "]") with
                    | .error e => .error e
                    | .ok (_, j5) => .ok (.newArray "int" size, j5)
          else parse_pexp tokens fuel i
      else if token.2 = "(" then
        match consume tokens i (some "PUNCTUATION") (some "(") with
        | .error e => .error e
        | .ok (_, j1) =>
          match parse_expression tokens fuel j1 with
          | .error e => .error e
          | .ok (expr, j2) =>
            match consume tokens j2 (some "PUNCTUATION") (some ")") with
            | .error e => .error e
            | .ok (_, j3) => .ok (expr, j3)
      else parse_pexp tokens fuel i

/-- `parse_pexp`: primary expressions (`id`, `this`, `new id ( )`,
`( EXP )`) followed by the `.`/`[` extension loop. -/
def parse_pexp (tokens : List Token) : Nat → Nat → Except String (MJPExpr × Nat)
  | 0, _ => .error "RecursionError"
  | fuel + 1, i =>
    match current_token tokens i with
    | none => .error "TypeError: NoneType is not subscriptable"
    | some token =>
      if token.1 = "IDENTIFIER" then
        match consume tokens i (some "IDENTIFIER") none with
        | .error e => .error e
        | .ok (idt, j) => parse_pexp_loop tokens fuel (.identifier idt.2) j
      else if token.2 = "this" then
        match consume tokens i (some "RESERVED") (some "this") with
        | .error e => .error e
        | .ok (_, j) => parse_pexp_loop tokens fuel .thisExpr j
      else if token.2 = "new" then
        match consume tokens i (some "RESERVED") (some "new") with
        | .error e => .error e
        | .ok (_, j1) =>
          match consume tokens j1 (some "IDENTIFIER") none with
          | .error e => .error e
          | .ok (cls, j2) =>
            match consume tokens j2 (some "PUNCTUATION") (some "(") with
            | .error e => .error e
            | .ok (_, j3) =>
              match consume tokens j3 (some "PUNCTUATION") (some ")") with
              | .error e => .error e
              | .ok (_, j4) => parse_pexp_loop tokens fuel (.newObject cls.2) j4
      else if token.2 = "(" then
        match consume tokens i (some "PUNCTUATION") (some "(") with
        | .error e => .error e
        | .ok (_, j1) =>
          match parse_expression tokens fuel j1 with
          | .error e => .error e
          | .ok (left, j2) =>
            match consume tokens j2 (some "PUNCTUATION") (some ")") with
            | .error e => .error e
            | .ok (_, j3) => parse_pexp_loop tokens fuel left j3
      else .error ("Unexpected token in primary expression: " ++ token.1 ++ " " ++ token.2)

/-- The `while ... in {".", "["}` extension loop of `parse_pexp`:
method calls / field accesses and array indexing. -/
def parse_pexp_loop (tokens : List Token) : Nat → MJPExpr → Nat → Except String (MJPExpr × Nat)
  | 0, _, _ => .error "RecursionError"
  | fuel + 1, left, i =>
    match current_token tokens i with
    | some tok =>
      if tok.2 = "." then
        match consume tokens i (some "PUNCTUATION") (some ".") with
        | .error e => .error e
        | .ok (_, j1) =>
          match consume tokens j1 (some "IDENTIFIER") none with
          | .error e => .error e
          | .ok (mf, j2) =>
            match current_token tokens j2 with
            | some t3 =>
              if t3.2 = "(" then
                match consume tokens j2 (some "PUNCTUATION") (some "(") with
                | .error e => .error e
                | .ok (_, j3) =>
                  match current_token tokens j3 with
                  | none => .error "TypeError: NoneType is not subscriptable"
                  | some t4 =>
                    if t4.2 ≠ ")" then
                      match parse_exps tokens fuel j3 with
                      | .error e => .error e
                      | .ok (args, j4) =>
                        match consume tokens j4 (some "PUNCTUATION") (some ")") with
                        | .error e => .error e
                        | .ok (_, j5) =>
                          parse_pexp_loop tokens fuel (.methodCall left mf.2 (some args)) j5
                    else
                      match consume tokens j3 (some "PUNCTUATION") (some ")") with
                      | .error e => .error e
                      | .ok (_, j5) =>
                        parse_pexp_loop tokens fuel (.methodCall left mf.2 none) j5
              else parse_pexp_loop tokens fuel (.fieldAccess left mf.2) j2
            | none => parse_pexp_loop tokens fuel (.fieldAccess left mf.2) j2
      else if tok.2 = "[" then
        match consume tokens i (some "PUNCTUATION") (some "[") with
        | .error e => .error e
        | .ok (_, j1) =>
          match parse_expression tokens fuel j1 with
          | .error e => .error e
          | .ok (index, j2) =>
            match consume tokens j2 (some "PUNCTUATION") (some "]") with
            | .error e => .error e
            | .ok (_, j3) => parse_pexp_loop tokens fuel (.arrayAccess left index) j3
      else .ok (left, i)
    | none => .ok (left, i)

/-- `parse_exps`: `EXPS -> EXP {, EXP}`, producing an
`ExpressionList`. -/
def parse_exps (tokens : List Token) : Nat → Nat → Except String (MJPExpr × Nat)
  | 0, _ => .error "RecursionError"
  | fuel + 1, i =>
    match parse_expression tokens fuel i with
    | .error e => .error e
    | .ok (e, j) => parse_exps_loop tokens fuel [e] j

/-- The `while ... == ","` accumulation loop of `parse_exps`. -/
def parse_exps_loop (tokens : List Token) : Nat → List MJPExpr → Nat → Except String (MJPExpr × Nat)
  | 0, _, _ => .error "RecursionError"
  | fuel + 1, acc, i =>
    match current_token tokens i with
    | some tok =>
      if tok.2 = "," then
        match consume tokens i (some "PUNCTUATION") (some ",") with
        | .error e => .error e
        | .ok (_, j) =>
          match parse_expression tokens fuel j with
          | .error e => .error e
          | .ok (e, k) => parse_exps_loop tokens fuel (acc ++ [e]) k
      else .ok (.expressionList acc, i)
    | none => .ok (.expressionList acc, i)

end

/-- Generic lookup in a Python dict given as an association list. -/
def alookup {α : Type} : List (String × α) → String → Option α
  | [], _ => none
  | (k, v) :: rest, s => if s = k then some v else alookup rest s

/-- Python dict assignment `d[k] = v` on an association list: updates
in place (keeping the original position) or appends. -/
def ainsert {α : Type} (k : String) (v : α) : List (String × α) → List (String × α)
  | [] => [(k, v)]
  | (k', v') :: rest => if k' = k then (k, v) :: rest else (k', v') :: ainsert k v rest

/-- In-place update of the value stored under `k` (used for mutations
of `self.symbol_table[class_name]`, whose presence the caller has
ensured). -/
def aupdate {α : Type} (k : String) (f : α → α) : List (String × α) → List (String × α)
  | [] => []
  | (k', v') :: rest => if k' = k then (k', f v') :: rest else (k', v') :: aupdate k f rest

/-- Expression nodes as `MiniJavaSemanticAnalyzer.check_expression`
dispatches them (the `"type"` strings of the dicts become
constructors). -/
inductive SemExpr where
  | methodCall (target : SemExpr) (method_name : String) (arguments : List SemExpr)
  | arithmeticOp (operator : String) (left right : SemExpr)
  | relationalOp (operator : String) (left right : SemExpr)
  | logicalOp (operator : String) (left right : SemExpr)
  | unaryOp (operator : String) (operand : SemExpr)
  | identifier (name : String)
  | number (value : Int)
  | boolean (value : Bool)
  | newObject (class_name : String)
  | thisExpr
  | arrayAccess (array index : SemExpr)
  | arrayLength (array : SemExpr)
  | arrayInstantiation (size : SemExpr)
  | expressionList (expressions : List SemExpr)

/-- Command nodes as `check_command` dispatches them.  `ArrayAssignment`
(produced by the parser) falls into the unsupported-command branch. -/
inductive SemCmd where
  | assignment (target : String) (value : SemExpr)
  | ifCmd (condition : SemExpr) (if_true : SemCmd) (if_false : Option SemCmd)
  | whileCmd (condition : SemExpr) (body : SemCmd)
  | print (expression : SemExpr)
  | returnCmd (value : SemExpr)
  | block (commands : List SemCmd)
  | methodCallCmd (target : SemExpr) (method_name : String) (arguments : List SemExpr)
  | arrayAssignment (target : String) (index value : SemExpr)

/-- The Python `"type"` string of an expression node, for error
messages. -/
def nodeTypeE : SemExpr → String
  | .methodCall _ _ _ => "MethodCall"
  | .arithmeticOp _ _ _ => "ArithmeticOp"
  | .relationalOp _ _ _ => "RelationalOp"
  | .logicalOp _ _ _ => "LogicalOp"
  | .unaryOp _ _ => "UnaryOp"
  | .identifier _ => "Identifier"
  | .number _ => "Number"
  | .boolean _ => "Boolean"
  | .newObject _ => "NewObject"
  | .thisExpr => "This"
  | .arrayAccess _ _ => "ArrayAccess"
  | .arrayLength _ => "ArrayLength"
  | .arrayInstantiation _ => "ArrayInstantiation"
  | .expressionList _ => "ExpressionList"

/-- `{"type": "Parameter", "param_type": ..., "name": ...}`. -/
structure MJParam where
  name : String
  param_type : String

/-- `{"type": "Variable", "var_type": ..., "name": ...}` (also used for
class fields). -/
structure MJVar where
  name : String
  var_type : String

/-- A `Method` node as the semantic analyzer reads it. -/
structure MJMethod where
  name : String
  return_type : String
  parameters : List MJParam
  local_variables : List MJVar
  commands : List SemCmd
  return_expression : SemExpr

/-- A `Class` node.  `extends_` models `clazz.get("extends")` as the
analyzer expects it; note that the parser actually stores the parent
class under the key `"parent"`, so in the composed pipeline this lookup
always yields `None` — modelling the field as present only strengthens
any counterexample about inheritance handling. -/
structure MJClass where
  name : String
  extends_ : Option String
  fields : List MJVar
  methods : List MJMethod

/-- A `MainClass` node. -/
structure MJMainClass where
  class_name : String
  argument_name : String
  commands : List SemCmd

/-- A `Program` node. -/
structure MJProgram where
  main_class : MJMainClass
  classes : List MJClass

/-- A method signature entry of the symbol table: `{"parameters":
ordered dict name → type, "return_type": ...}`. -/
structure MethodSig where
  parameters : List (String × String)
  return_type : String

/-- A class entry of the symbol table: `{"fields": ..., "methods": ...,
"extends": ...}`. -/
structure ClassEntry where
  fields : List (String × String)
  methods : List (String × MethodSig)
  extends_ : Option String

/-- `self.symbol_table`: ordered dict class name → entry. -/
abbrev SymTable := List (String × ClassEntry)

/-- A per-method table (`method_table`): dict from names to type
strings.  The key `"current_class"` maps to the enclosing class name. -/
abbrev MT := String → Option String

/-- The empty method table. -/
def emptyMT : MT := fun _ => none

/-- Dict assignment on a method table. -/
def mtInsert (k v : String) (m : MT) : MT :=
  fun x => if x = k then some v else m x

/-- The dict comprehension `{param["name"]: param["param_type"] for
param in method["parameters"]}`. -/
def params_dict (ps : List MJParam) : List (String × String) :=
  ps.foldl (fun acc p => ainsert p.name p.param_type acc) []

/-- The method-collection loop of `collect_declarations`, with its
duplicate-method check. -/
def collect_class_methods (class_name : String) :
    List MJMethod → List (String × MethodSig) → Except String (List (String × MethodSig))
  | [], acc => .ok acc
  | m :: rest, acc =>
    match alookup acc m.name with
    | some _ =>
      .error ("Duplicate method name '" ++ m.name ++ "' in class '" ++ class_name ++ "'.")
    | none =>
      collect_class_methods class_name rest (ainsert m.name ⟨params_dict m.parameters, m.return_type⟩ acc)

/-- One iteration of the class loop of `collect_declarations`. -/
def collect_one_class (tbl : SymTable) (clazz : MJClass) : Except String SymTable :=
  let tbl1 :=
    match alookup tbl clazz.name with
    | some _ => tbl
    | none => ainsert clazz.name ⟨[], [], clazz.extends_⟩ tbl
  let tbl2 :=
    aupdate clazz.name
      (fun e => ⟨clazz.fields.foldl (fun fs v => ainsert v.name v.var_type fs) e.fields,
                 e.methods, e.extends_⟩) tbl1
  match alookup tbl2 clazz.name with
  | none => .error ("KeyError: " ++ clazz.name)
  | some e =>
    match collect_class_methods clazz.name clazz.methods e.methods with
    | .error er => .error er
    | .ok ms => .ok (aupdate clazz.name (fun e2 => ⟨e2.fields, ms, e2.extends_⟩) tbl2)

/-- The class loop of `collect_declarations`. -/
def collect_classes : SymTable → List MJClass → Except String SymTable
  | tbl, [] => .ok tbl
  | tbl, c :: cs =>
    match collect_one_class tbl c with
    | .error e => .error e
    | .ok tbl2 => collect_classes tbl2 cs

/-- `collect_declarations` (pass 1): register the main class (the
`not in` guard is vacuous on the initially empty table) and every
class with its fields and method signatures. -/
def collect_declarations (prog : MJProgram) : Except String SymTable :=
  collect_classes [(prog.main_class.class_name, ⟨[], [], none⟩)] prog.classes

mutual

/-- `check_command`, with a fuel argument modelling the Python call
stack.  The in-place rewrite at the end of the source function
(`node["expression"] = simplify_expression(...)` for non-`Print` nodes
carrying an `"expression"` key) is a no-op for parser-produced
commands — only `Print` carries that key — and is not modelled. -/
def check_command (symtab : SymTable) : Nat → MT → SemCmd → Except String Unit
  | 0, _, _ => .error "RecursionError: maximum recursion depth exceeded"
  | fuel + 1, mt, cmd =>
    match cmd with
    | .assignment target value =>
      if (mt target).isNone then
        .error ("Variable '" ++ target ++ "' is not declared in the current or outer scope.")
      else check_expression symtab fuel mt value
    | .ifCmd condition if_true if_false =>
      (match check_expression symtab fuel mt condition with
      | .error e => .error e
      | .ok _ =>
        match check_command symtab fuel mt if_true with
        | .error e => .error e
        | .ok _ =>
          -- the parser always stores an "if_false" key (None when the else
          -- branch is absent), so the `"if_false" in node` test always
          -- succeeds; a None value then crashes on node["type"]
          match if_false with
          | some c => check_command symtab fuel mt c
          | none => .error "TypeError: NoneType is not subscriptable")
    | .whileCmd condition body =>
      (match check_expression symtab fuel mt condition with
      | .error e => .error e
      | .ok _ => check_command symtab fuel mt body)
    | .print expression => check_expression symtab fuel mt expression
    | .returnCmd value => check_expression symtab fuel mt value
    | .block commands => check_command_list symtab fuel mt commands
    | .methodCallCmd target method_name arguments =>
      validate_method_call symtab fuel mt target method_name arguments
    | .arrayAssignment _ _ _ => .error "Unsupported command type: ArrayAssignment"

/-- The `for command in ...` loops over command lists. -/
def check_command_list (symtab : SymTable) : Nat → MT → List SemCmd → Except String Unit
  | 0, _, _ => .error "RecursionError: maximum recursion depth exceeded"
  | _ + 1, _, [] => .ok ()
  | fuel + 1, mt, c :: cs =>
    match check_command symtab fuel mt c with
    | .error e => .error e
    | .ok _ => check_command_list symtab fuel mt cs

/-- `check_expression`: scope checking of expression nodes. -/
def check_expression (symtab : SymTable) : Nat → MT → SemExpr → Except String Unit
  | 0, _, _ => .error "RecursionError: maximum recursion depth exceeded"
  | fuel + 1, mt, e =>
    match e with
    | .methodCall target method_name arguments =>
      validate_method_call symtab fuel mt target method_name arguments
    | .arithmeticOp _ l r =>
      (match check_expression symtab fuel mt l with
      | .error er => .error er
      | .ok _ => check_expression symtab fuel mt r)
    | .relationalOp _ l r =>
      (match check_expression symtab fuel mt l with
      | .error er => .error er
      | .ok _ => check_expression symtab fuel mt r)
    | .logicalOp _ l r =>
      (match check_expression symtab fuel mt l with
      | .error er => .error er
      | .ok _ => check_expression symtab fuel mt r)
    | .unaryOp _ operand => check_expression symtab fuel mt operand
    | .identifier name =>
      if (mt name).isNone then .error ("Variable '" ++ name ++ "' is not declared.")
      else .ok ()
    | .number _ => .ok ()
    | .boolean _ => .ok ()
    | .newObject class_name =>
      if (alookup symtab class_name).isNone then
        .error ("Class '" ++ class_name ++ "' is not defined.")
      else .ok ()
    | .thisExpr =>
      if (mt "current_class").isNone then
        .error "'this' cannot be used outside a class context."
      else .ok ()
    | .arrayAccess array index =>
      (match check_expression symtab fuel mt array with
      | .error er => .error er
      | .ok _ => check_expression symtab fuel mt index)
    | .arrayLength array => check_expression symtab fuel mt array
    | .arrayInstantiation size => check_expression symtab fuel mt size
    | .expressionList exprs => check_expression_list symtab fuel mt exprs

/-- The `for expr in ...` loop of the `ExpressionList` branch. -/
def check_expression_list (symtab : SymTable) : Nat → MT → List SemExpr → Except String Unit
  | 0, _, _ => .error "RecursionError: maximum recursion depth exceeded"
  | _ + 1, _, [] => .ok ()
  | fuel + 1, mt, e :: es =>
    match check_expression symtab fuel mt e with
    | .error er => .error er
    | .ok _ => check_expression_list symtab fuel mt es

/-- `validate_method_call`: resolve the receiver class statically
(`new C()` or `this`), look the method up, check arity and argument
types.  (When `this` is used with no `current_class` binding, the
Python `None` key misses the table and the error message interpolates
`None`.) -/
def validate_method_call (symtab : SymTable) :
    Nat → MT → SemExpr → String → List SemExpr → Except String Unit
  | 0, _, _, _, _ => .error "RecursionError: maximum recursion depth exceeded"
  | fuel + 1, mt, target, method_name, arguments =>
    match (match target with
           | .newObject cn => .ok cn
           | .thisExpr =>
             (match mt "current_class" with
             | some cn => .ok cn
             | none => .error "Class 'None' not found.")
           | other => .error ("Unsupported method call target: " ++ nodeTypeE other)
           : Except String String) with
    | .error e => .error e
    | .ok class_name =>
      match alookup symtab class_name with
      | none => .error ("Class '" ++ class_name ++ "' not found.")
      | some entry =>
        match alookup entry.methods method_name with
        | none =>
          .error ("Method '" ++ method_name ++ "' not found in class '" ++ class_name ++ "'.")
        | some sig =>
          if arguments.length ≠ sig.parameters.length then
            .error ("Method '" ++ method_name ++ "' expects " ++ toString sig.parameters.length ++
              " arguments, but " ++ toString arguments.length ++ " were provided.")
          else check_arguments symtab fuel mt method_name arguments sig.parameters 0

/-- The `zip(arguments, expected_parameters.items())` type-check loop
of `validate_method_call` (`i` is the 0-based index of the enumerate). -/
def check_arguments (symtab : SymTable) :
    Nat → MT → String → List SemExpr → List (String × String) → Nat → Except String Unit
  | 0, _, _, _, _, _ => .error "RecursionError: maximum recursion depth exceeded"
  | _ + 1, _, _, [], _, _ => .ok ()
  | _ + 1, _, _, _ :: _, [], _ => .ok ()
  | fuel + 1, mt, method_name, arg :: args, (_, pt) :: ps, i =>
    match get_expression_type symtab fuel mt arg with
    | .error e => .error e
    | .ok arg_type =>
      if arg_type ≠ pt then
        .error ("Argument " ++ toString (i + 1) ++ " of method '" ++ method_name ++
          "' is of type '" ++ arg_type ++ "', but expected '" ++ pt ++ "'.")
      else check_arguments symtab fuel mt method_name args ps (i + 1)

/-- `get_expression_type`.  The source's `"Constant"`, `"Variable"`,
`"BinaryOperation"` and `"FunctionCall"` branches match node-type
strings that no producer in this pipeline emits (and the `"Variable"`
branch references an unbound `class_name`, a latent `NameError`); they
are unreachable and not modelled — every other node falls to the
`Unsupported expression type` error as in the source. -/
def get_expression_type (symtab : SymTable) : Nat → MT → SemExpr → Except String String
  | 0, _, _ => .error "RecursionError: maximum recursion depth exceeded"
  | fuel + 1, mt, e =>
    match e with
    | .number _ => .ok "int"
    | .identifier name =>
      (match mt name with
      | some t => .ok t
      | none => .error ("Variable '" ++ name ++ "' is not declared."))
    | .arithmeticOp _ l r =>
      (match get_expression_type symtab fuel mt l with
      | .error e => .error e
      | .ok lt =>
        match get_expression_type symtab fuel mt r with
        | .error e => .error e
        | .ok rt =>
          if lt = "int" ∧ rt = "int" then .ok "int"
          else .error ("Incompatible types in arithmetic operation: " ++ lt ++ " and " ++ rt))
    | other => .error ("Unsupported expression type: " ++ nodeTypeE other)

end

/-- The local-variable half of `validate_method`'s table construction,
with its duplicate check. -/
def build_locals (method_name : String) : List MJVar → MT → Except String MT
  | [], mt => .ok mt
  | v :: vs, mt =>
    if (mt v.name).isSome then
      .error ("Duplicate local variable '" ++ v.name ++ "' in method '" ++ method_name ++ "'.")
    else build_locals method_name vs (mtInsert v.name v.var_type mt)

/-- The method-table construction of `validate_method`:
`{"current_class": class_name}`, then parameters (silent overwrite),
then locals (duplicate check). -/
def buildMethodTable (class_name : String) (method : MJMethod) : Except String MT :=
  build_locals method.name method.local_variables
    (method.parameters.foldl (fun t p => mtInsert p.name p.param_type t)
      (mtInsert "current_class" class_name emptyMT))

/-- `validate_method`: build the table, check the commands, then check
the return expression's type against the declared return type (the
`"return_expression" in method` test is always true on parser
output). -/
def validate_method (symtab : SymTable) (fuel : Nat) (method : MJMethod) (class_name : String) :
    Except String Unit :=
  match buildMethodTable class_name method with
  | .error e => .error e
  | .ok mt =>
    match check_command_list symtab fuel mt method.commands with
    | .error e => .error e
    | .ok _ =>
      match get_expression_type symtab fuel mt method.return_expression with
      | .error e => .error e
      | .ok rt =>
        if rt ≠ method.return_type then
          .error ("Return type mismatch in method '" ++ method.name ++ "'. Expected '" ++
            method.return_type ++ "', got '" ++ rt ++ "'.")
        else .ok ()

/-- The method loop of `validate_class`. -/
def validate_methods (symtab : SymTable) (fuel : Nat) :
    List MJMethod → String → Except String Unit
  | [], _ => .ok ()
  | m :: ms, class_name =>
    match validate_method symtab fuel m class_name with
    | .error e => .error e
    | .ok _ => validate_methods symtab fuel ms class_name

/-- `validate_class`. -/
def validate_class (symtab : SymTable) (fuel : Nat) (clazz : MJClass) : Except String Unit :=
  validate_methods symtab fuel clazz.methods clazz.name

/-- `validate_main_class`: each main command is checked against a table
holding only `current_class` (the node-type guard cannot fire on a
typed `MainClass`). -/
def validate_main_class (symtab : SymTable) (fuel : Nat) (mc : MJMainClass) :
    Except String Unit :=
  check_command_list symtab fuel (mtInsert "current_class" mc.class_name emptyMT) mc.commands

/-- The class loop of `validate_program`. -/
def validate_classes (symtab : SymTable) (fuel : Nat) : List MJClass → Except String Unit
  | [] => .ok ()
  | c :: cs =>
    match validate_class symtab fuel c with
    | .error e => .error e
    | .ok _ => validate_classes symtab fuel cs

/-- `validate_program` (pass 2). -/
def validate_program (symtab : SymTable) (fuel : Nat) (prog : MJProgram) : Except String Unit :=
  match validate_main_class symtab fuel prog.main_class with
  | .error e => .error e
  | .ok _ => validate_classes symtab fuel prog.classes

/-- `MiniJavaSemanticAnalyzer.analyze`: collect declarations, then
validate — and nothing else.  In particular `resolve_inheritance` is
never invoked from here. -/
def analyze (fuel : Nat) (prog : MJProgram) : Except String MJProgram :=
  match collect_declarations prog with
  | .error e => .error e
  | .ok symtab =>
    match validate_program symtab fuel prog with
    | .error e => .error e
    | .ok _ => .ok prog

/-- `check_method_override`'s positional parameter-type comparison. -/
def check_override_params (class_name method_name : String) :
    List (String × String) → List (String × String) → Except String Unit
  | [], _ => .ok ()
  | _ :: _, [] => .ok ()
  | (pn, pt) :: ps, (_, ct) :: cs =>
    if pt ≠ ct then
      .error ("Method '" ++ method_name ++ "' in class '" ++ class_name ++
        "' overrides parameter '" ++ pn ++ "' with incompatible type. Expected '" ++
        pt ++ "', got '" ++ ct ++ "'.")
    else check_override_params class_name method_name ps cs

/-- `check_method_override`. -/
def check_method_override (class_name method_name : String)
    (parent_method child_method : MethodSig) : Except String Unit :=
  if parent_method.return_type ≠ child_method.return_type then
    .error ("Method '" ++ method_name ++ "' in class '" ++ class_name ++
      "' overrides with incompatible return type. Expected '" ++
      parent_method.return_type ++ "', got '" ++ child_method.return_type ++ "'.")
  else if parent_method.parameters.length ≠ child_method.parameters.length then
    .error ("Method '" ++ method_name ++ "' in class '" ++ class_name ++
      "' overrides with incompatible parameter count.")
  else check_override_params class_name method_name parent_method.parameters child_method.parameters

/-- The parent-field merge loop of `resolve_class_inheritance`. -/
def merge_fields (parentFields childFields : List (String × String)) : List (String × String) :=
  parentFields.foldl
    (fun cf p => if (alookup cf p.1).isSome then cf else ainsert p.1 p.2 cf) childFields

/-- The parent-method merge loop of `resolve_class_inheritance`, with
override checking for locally redeclared methods. -/
def merge_methods (class_name : String) :
    List (String × MethodSig) → List (String × MethodSig) → Except String (List (String × MethodSig))
  | [], child => .ok child
  | (mn, msig) :: rest, child =>
    match alookup child mn with
    | none => merge_methods class_name rest (ainsert mn msig child)
    | some cmsig =>
      match check_method_override class_name mn msig cmsig with
      | .error e => .error e
      | .ok _ => merge_methods class_name rest child

/-- `resolve_class_inheritance`: walk the `extends` chain with a
`visited` set, failing on a revisit (cyclic inheritance) or a missing
parent, then merge the resolved parent's fields and methods into the
child entry.  Fuel models the Python recursion limit. -/
def resolve_class_inheritance : Nat → SymTable → String → List String → Except String SymTable
  | 0, _, _, _ => .error "RecursionError: maximum recursion depth exceeded"
  | fuel + 1, symtab, class_name, visited =>
    if class_name ∈ visited then
      .error ("Cyclic inheritance detected in class '" ++ class_name ++ "'.")
    else
      match alookup symtab class_name with
      | none => .error ("KeyError: " ++ class_name)
      | some entry =>
        match entry.extends_ with
        | none => .ok symtab
        | some parent_name =>
          if (alookup symtab parent_name).isNone then
            .error ("Class '" ++ parent_name ++ "', extended by '" ++ class_name ++
              "', is not defined.")
          else
            match resolve_class_inheritance fuel symtab parent_name (class_name :: visited) with
            | .error e => .error e
            | .ok symtab2 =>
              match alookup symtab2 parent_name, alookup symtab2 class_name with
              | some parent, some child =>
                (match merge_methods class_name parent.methods child.methods with
                | .error e => .error e
                | .ok ms =>
                  .ok (aupdate class_name
                    (fun c => ⟨merge_fields parent.fields c.fields, ms, c.extends_⟩) symtab2))
              | _, _ => .error ("KeyError: " ++ class_name)

/-- The class loop of `resolve_inheritance` (iterating the keys of the
initial table; the resolution never adds or removes classes). -/
def resolve_classes (fuel : Nat) : SymTable → List String → Except String SymTable
  | symtab, [] => .ok symtab
  | symtab, cn :: rest =>
    match resolve_class_inheritance fuel symtab cn [] with
    | .error e => .error e
    | .ok symtab2 => resolve_classes fuel symtab2 rest

/-- `resolve_inheritance`: resolve every class with a fresh `visited`
set.  This method exists on the analyzer but is never called by
`analyze`. -/
def resolve_inheritance (fuel : Nat) (symtab : SymTable) : Except String SymTable :=
  resolve_classes fuel symtab (symtab.map Prod.fst)

/-- A program whose classes form an inheritance cycle:
`class A extends B {}` and `class B extends A {}` with an empty main
class. -/
def cyclicProgram : MJProgram :=
  ⟨⟨"Main", "a", []⟩,
   [⟨"A", some "B", [], []⟩, ⟨"B", some "A", [], []⟩]⟩

/-- A program whose method body uses the identifier `current_class`
without any declaration: `class C { public int m() { int x;
x = current_class; return x; } }`. -/
def currentClassProgram : MJProgram :=
  ⟨⟨"Main", "a", []⟩,
   [⟨"C", none, [],
     [⟨"m", "int", [], [⟨"x", "int"⟩],
       [.assignment "x" (.identifier "current_class")],
       .identifier "x"⟩]⟩]⟩

/-- Expression nodes of `MiniJavaCodeGenerator.generate_expression`
relevant to array handling (`"Number"`, `"ArrayInstantiation"`,
`"ArrayLength"` in the source's dispatch). -/
inductive CGExpr where
  | number (value : Int)
  | arrayInstantiation (size : CGExpr)
  | arrayLength (array : CGExpr)

/-- The MIPS instructions emitted by the modelled `generate_expression`
branches, structurally (each constructor is one `text_section.append`
f-string of the source, with its trailing comment dropped). -/
inductive MInstr where
  | li (reg : String) (value : Int)
  | mulImm (dst src : String) (k : Int)
  | addiuImm (dst src : String) (k : Int)
  | move (dst src : String)
  | syscall
  | sw (src : String) (offset : Int) (base : String)
  | lw (dst : String) (offset : Int) (base : String)

/-- The code generator's mutable state: `self.used_registers` (a set,
modelled as a duplicate-free list) and `self.text_section`. -/
structure CGState where
  used_registers : List String
  text_section : List MInstr

/-- `self.registers`: the temporary register pool, in allocation
order. -/
def registers : List String :=
  ["$t0", "$t1", "$t2", "$t3", "$t4", "$t5", "$t6", "$t7", "$t8", "$t9"]

/-- The scan of `allocate_register`: first pool register not in use. -/
def allocate_register_from : List String → List String → Except String String
  | [], _ => .error "No free registers available."
  | r :: rs, used => if r ∈ used then allocate_register_from rs used else .ok r

/-- `allocate_register`: take the first free pool register, marking it
used; `CodeGenerationError` when none remain. -/
def allocate_register (st : CGState) : Except String (String × CGState) :=
  match allocate_register_from registers st.used_registers with
  | .error e => .error e
  | .ok r => .ok (r, ⟨st.used_registers ++ [r], st.text_section⟩)

/-- `free_register`: remove the register from the used set (no-op when
absent). -/
def free_register (reg : String) (st : CGState) : CGState :=
  ⟨st.used_registers.erase reg, st.text_section⟩

/-- `self.text_section.append(...)`. -/
def emit (i : MInstr) (st : CGState) : CGState :=
  ⟨st.used_registers, st.text_section ++ [i]⟩

/-- The `Number`, `ArrayInstantiation` and `ArrayLength` branches of
`generate_expression` (`minijava_codegen.py` lines 496-499, 582-603 and
636-644), emitting exactly the source's instruction sequences.  Note
the `ArrayInstantiation` branch overwrites the size register with
`4·size + 4` before storing it: the `sw` at the end stores that byte
count, not the element count, into the array's first word. -/
def generate_expression (node : CGExpr) (st : CGState) : Except String (String × CGState) :=
  match node with
  | .number value =>
    (match allocate_register st with
    | .error e => .error e
    | .ok (reg, st1) => .ok (reg, emit (.li reg value) st1))
  | .arrayInstantiation size =>
    (match generate_expression size st with
    | .error e => .error e
    | .ok (size_reg, st1) =>
      let st2 := emit (.mulImm size_reg size_reg 4) st1
      let st3 := emit (.addiuImm size_reg size_reg 4) st2
      let st4 := emit (.li "$v0" 9) st3
      let st5 := emit (.move "$a0" size_reg) st4
      let st6 := emit .syscall st5
      match allocate_register st6 with
      | .error e => .error e
      | .ok (array_reg, st7) =>
        let st8 := emit (.move array_reg "$v0") st7
        let st9 := emit (.sw size_reg 0 array_reg) st8
        .ok (array_reg, free_register size_reg st9))
  | .arrayLength array =>
    (match generate_expression array st with
    | .error e => .error e
    | .ok (array_reg, st1) =>
      match allocate_register st1 with
      | .error e => .error e
      | .ok (length_reg, st2) =>
        let st3 := emit (.lw length_reg 0 array_reg) st2
        .ok (length_reg, free_register array_reg st3))

/-- The machine state for running emitted code: registers, memory, the
heap break (`sbrk` pointer) and the log of `sbrk` allocation sizes
requested via syscall 9. -/
structure MState where
  regs : String → Int
  mem : Int → Int
  brk : Int
  allocs : List Int

/-- Register write. -/
def setReg (r : String) (v : Int) (st : MState) : MState :=
  ⟨fun x => if x = r then v else st.regs x, st.mem, st.brk, st.allocs⟩

/-- Small-step semantics of the emitted instruction subset: `sbrk`
(syscall 9) returns the old break in `$v0` and advances it by `$a0`
bytes; other syscalls are irrelevant here and leave the state
unchanged. -/
def exec (st : MState) : MInstr → MState
  | .li r v => setReg r v st
  | .mulImm d s k => setReg d (st.regs s * k) st
  | .addiuImm d s k => setReg d (st.regs s + k) st
  | .move d s => setReg d (st.regs s) st
  | .syscall =>
    if st.regs "$v0" = 9 then
      ⟨fun x => if x = "$v0" then st.brk else st.regs x, st.mem,
       st.brk + st.regs "$a0", st.allocs ++ [st.regs "$a0"]⟩
    else st
  | .sw s off b =>
    ⟨st.regs, fun a => if a = st.regs b + off then st.regs s else st.mem a,
     st.brk, st.allocs⟩
  | .lw d off b => setReg d (st.mem (st.regs b + off)) st

/-- Run an instruction sequence. -/
def execList : MState → List MInstr → MState
  | st, [] => st
  | st, i :: is => execList (exec st i) is

/-- A fresh machine state with heap break `b`. -/
def initMState (b : Int) : MState := ⟨fun _ => 0, fun _ => 0, b, []⟩

/-- A fresh code-generator state. -/
def initCGState : CGState := ⟨[], []⟩

-- ===================================================================
-- Theorems
-- ===================================================================

/-- An element not satisfying `p` survives `dropWhile p`. -/
theorem mem_dropWhile_of_not {α} (p : α → Bool) (x : α) (h : p x = false) :
    ∀ l : List α, x ∈ l → x ∈ l.dropWhile p := by
  intro l hx
  induction l with
  | nil => cases hx
  | cons y ys ih =>
    by_cases hy : p y = true
    · rw [List.dropWhile_cons_of_pos hy]
      rcases List.mem_cons.mp hx with h1 | h1
      · subst h1; rw [h] at hy; cases hy
      · exact ih h1
    · rw [List.dropWhile_cons_of_neg hy]
      exact hx

/-- Membership in a string is preserved by `pyStripChar c` for
characters other than `c`. -/
theorem mem_pyStripChar {c x : Char} (hx : x ≠ c) {t : String}
    (h : x ∈ t.toList) : x ∈ (pyStripChar c t).toList := by
  have hp : (fun y => decide (y = c)) x = false := by simp [hx]
  unfold pyStripChar
  have h1 := mem_dropWhile_of_not (fun y => decide (y = c)) x hp t.toList h
  have h2 : x ∈ (t.toList.dropWhile (fun y => decide (y = c))).reverse := by
    simpa using h1
  have h3 := mem_dropWhile_of_not (fun y => decide (y = c)) x hp _ h2
  simpa using h3

/-- `splitParen` succeeds only on lists that contain `'('`. -/
theorem splitParen_some_mem {cs : List Char} {o r : List Char}
    (h : splitParen cs = some (o, r)) : '(' ∈ cs := by
  induction cs generalizing o r with
  | nil => cases h
  | cons c cs ih =>
    unfold splitParen at h
    by_cases hc : c = '('
    · subst hc; exact List.mem_cons_self _ _
    · rw [if_neg hc] at h
      cases hsp : splitParen cs with
      | none => rw [hsp] at h; cases h
      | some p =>
        rw [hsp] at h
        exact List.mem_cons_of_mem _ (ih (o := p.1) (r := p.2) (by rw [hsp]))

/-- `splitParen` fails on lists without `'('`. -/
theorem splitParen_none {cs : List Char} (h : '(' ∉ cs) : splitParen cs = none := by
  induction cs with
  | nil => rfl
  | cons c cs ih =>
    unfold splitParen
    have hc : ¬ c = '(' := fun he => h (he ▸ List.mem_cons_self _ _)
    rw [if_neg hc, ih (fun hm => h (List.mem_cons_of_mem _ hm))]
    rfl

/-- Characterization of a successful `splitParen`. -/
theorem splitParen_eq_some {cs o r : List Char} (h : splitParen cs = some (o, r)) :
    cs = o ++ '(' :: r ∧ '(' ∉ o ∧ '(' ∉ r := by
  induction cs generalizing o r with
  | nil => cases h
  | cons c cs ih =>
    unfold splitParen at h
    by_cases hc : c = '('
    · subst hc
      rw [if_pos rfl] at h
      by_cases hm : '(' ∈ cs
      · rw [if_pos hm] at h; cases h
      · rw [if_neg hm] at h
        injection h with h
        injection h with h1 h2
        subst h1; subst h2
        exact ⟨rfl, List.not_mem_nil _, hm⟩
    · rw [if_neg hc] at h
      cases hsp : splitParen cs with
      | none => rw [hsp] at h; cases h
      | some p =>
        rw [hsp] at h
        injection h with h
        injection h with h1 h2
        obtain ⟨e1, e2, e3⟩ := ih (o := p.1) (r := p.2) hsp
        subst h2
        refine ⟨?_, ?_, e3⟩
        · rw [← h1]; simp [e1]
        · rw [← h1]
          intro hx
          rcases List.mem_cons.mp hx with h4 | h4
          · exact hc h4.symm
          · exact e2 h4

/-- Splitting at an explicitly placed unique `'('`. -/
theorem splitParen_append {o r : List Char} (ho : '(' ∉ o) (hr : '(' ∉ r) :
    splitParen (o ++ '(' :: r) = some (o, r) := by
  induction o with
  | nil => simp [splitParen, hr]
  | cons c cs ih =>
    have hc : ¬ c = '(' := fun he => ho (he ▸ List.mem_cons_self _ _)
    have ho' : '(' ∉ cs := fun hm => ho (List.mem_cons_of_mem _ hm)
    rw [List.cons_append]
    unfold splitParen
    rw [if_neg hc, ih ho']
    rfl

/-- All characters of a numeral recognized by `pyDigits` are digits. -/
theorem pyDigits_chars {cs : List Char} {n : Nat} (h : pyDigits cs = some n) :
    ∀ c ∈ cs, c.isDigit := by
  induction cs generalizing n with
  | nil => intro c hc; cases hc
  | cons c cs ih =>
    intro x hx
    unfold pyDigits at h
    by_cases hd : c.isDigit
    · rw [if_pos hd] at h
      rcases List.mem_cons.mp hx with h1 | h1
      · subst h1; exact hd
      · cases cs with
        | nil => cases h1
        | cons d ds =>
          cases hmap : pyDigits (d :: ds) with
          | none => rw [hmap] at h; cases h
          | some m => exact ih hmap x h1
    · rw [if_neg hd] at h; cases h

/-- A string accepted by `pyInt` contains no `'('`. -/
theorem pyInt_no_paren {t : String} {v : Int} (h : pyInt t = some v) :
    '(' ∉ t.toList := by
  unfold pyInt at h
  intro hm
  cases hl : t.toList with
  | nil => rw [hl] at hm; cases hm
  | cons c cs =>
    rw [hl] at h hm
    by_cases hc : c = '-'
    · subst hc
      simp only [if_pos rfl] at h
      cases hd : pyDigits cs with
      | none => simp [hd] at h
      | some n =>
        rcases List.mem_cons.mp hm with h1 | h1
        · cases h1
        · have hdig := pyDigits_chars hd _ h1
          exact absurd hdig (by decide)
    · simp only [if_neg hc] at h
      cases hd : pyDigits (c :: cs) with
      | none => simp [hd] at h
      | some n =>
        have hdig := pyDigits_chars hd _ hm
        exact absurd hdig (by decide)

/-- A successful `lookupA` comes from an entry of the list. -/
theorem lookupA_mem {l : List (String × Nat)} {s : String} {c : Nat}
    (h : lookupA l s = some c) : (s, c) ∈ l := by
  induction l with
  | nil => cases h
  | cons p rest ih =>
    obtain ⟨k, v⟩ := p
    unfold lookupA at h
    by_cases hs : s = k
    · rw [if_pos hs] at h
      injection h with h
      rw [hs, h]
      exact List.mem_cons_self _ _
    · rw [if_neg hs] at h
      exact List.mem_cons_of_mem _ (ih h)

/-- Keys of `REGISTER_MAP` contain no `'('`. -/
theorem REGISTER_MAP_no_paren {s : String} {c : Nat} (h : REGISTER_MAP s = some c) :
    '(' ∉ s.toList := by
  have hmem := lookupA_mem h
  have hall : ∀ p ∈ REGISTER_MAP_LIST, '(' ∉ p.1.toList := by decide
  exact hall _ hmem

/-- `swapTok` preserves every successful `parse_register` result: the
two swapped names carry the same 5-bit code, and any other accepted
register token is untouched by the swap. -/
theorem parse_register_swapTok {t : String} {c : Nat} (h : parse_register t = .ok c) :
    parse_register (swapTok t) = .ok c := by
  have hmap : REGISTER_MAP (pyStripChar ',' t) = some c := by
    unfold parse_register at h
    cases hm : REGISTER_MAP (pyStripChar ',' t) with
    | none => simp [hm] at h
    | some k => simp [hm] at h; rw [h]
  by_cases h1 : t = "$sp"
  · subst h1
    have h4 : c = 4 := by
      have h5 : (some 4 : Option Nat) = some c := (rfl : REGISTER_MAP (pyStripChar ',' "$sp") = some 4).symm.trans hmap
      exact (Option.some.inj h5).symm
    rw [h4]; decide
  · by_cases h2 : t = "$a0"
    · subst h2
      have h4 : c = 4 := by
        have h5 : (some 4 : Option Nat) = some c := (rfl : REGISTER_MAP (pyStripChar ',' "$a0") = some 4).symm.trans hmap
        exact (Option.some.inj h5).symm
      rw [h4]; decide
    · by_cases h3 : t = "$sp,"
      · subst h3
        have h4 : c = 4 := by
          have h5 : (some 4 : Option Nat) = some c := (rfl : REGISTER_MAP (pyStripChar ',' "$sp,") = some 4).symm.trans hmap
          exact (Option.some.inj h5).symm
        rw [h4]; decide
      · by_cases h4 : t = "$a0,"
        · subst h4
          have h5 : c = 4 := by
            have h6 : (some 4 : Option Nat) = some c := (rfl : REGISTER_MAP (pyStripChar ',' "$a0,") = some 4).symm.trans hmap
            exact (Option.some.inj h6).symm
          rw [h5]; decide
        · have hnp : '(' ∉ t.toList := by
            intro hm
            exact REGISTER_MAP_no_paren hmap (mem_pyStripChar (by decide) hm)
          have hswap : swapTok t = t := by
            unfold swapTok
            rw [if_neg h1, if_neg h2, if_neg h3, if_neg h4, splitParen_none hnp]
          rw [hswap]
          exact h

/-- A token accepted by `parse_immediate` is untouched by `swapTok`. -/
theorem parse_immediate_swapTok_id {t : String} {b x : Nat}
    (h : parse_immediate t b = .ok x) : swapTok t = t := by
  have hv : ∃ v, pyInt t = some v := by
    unfold parse_immediate at h
    cases hv : pyInt t with
    | none => rw [hv] at h; cases h
    | some v => exact ⟨v, rfl⟩
  obtain ⟨v, hv⟩ := hv
  by_cases h1 : t = "$sp"
  · rw [h1] at hv; rw [(by decide : pyInt "$sp" = none)] at hv; cases hv
  · by_cases h2 : t = "$a0"
    · rw [h2] at hv; rw [(by decide : pyInt "$a0" = none)] at hv; cases hv
    · by_cases h3 : t = "$sp,"
      · rw [h3] at hv; rw [(by decide : pyInt "$sp," = none)] at hv; cases hv
      · by_cases h4 : t = "$a0,"
        · rw [h4] at hv; rw [(by decide : pyInt "$a0," = none)] at hv; cases hv
        · have hnp : '(' ∉ t.toList := pyInt_no_paren hv
          unfold swapTok
          rw [if_neg h1, if_neg h2, if_neg h3, if_neg h4, splitParen_none hnp]

/-- Computation rule for `parse_offset` once the split is known. -/
theorem parse_offset_eq {o r : List Char} {t : String}
    (hsp : splitParen t.toList = some (o, r)) :
    parse_offset t =
      match parse_immediate (String.mk o) 16 with
      | .error e => .error e
      | .ok off =>
        match parse_register (pyStripChar ')' (String.mk r)) with
        | .error e => .error e
        | .ok reg => .ok (off, reg) := by
  unfold parse_offset
  rw [hsp]

/-- `swapTok` preserves every successful `parse_offset` result:
swapping the base register of an `offset(reg)` operand between `$sp`
and `$a0` yields the same 16-bit offset and the same 5-bit base code. -/
theorem parse_offset_swapTok {t : String} {p : Nat × Nat} (h : parse_offset t = .ok p) :
    parse_offset (swapTok t) = .ok p := by
  cases hsp : splitParen t.toList with
  | none =>
    unfold parse_offset at h
    rw [hsp] at h
    cases h
  | some q =>
    obtain ⟨o, r⟩ := q
    rw [parse_offset_eq hsp] at h
    obtain ⟨hcs, ho, hr⟩ := splitParen_eq_some hsp
    have hmem : '(' ∈ t.toList := by rw [hcs]; simp
    have h1 : t ≠ "$sp" := by
      intro he; rw [he] at hmem; exact absurd hmem (by decide)
    have h2 : t ≠ "$a0" := by
      intro he; rw [he] at hmem; exact absurd hmem (by decide)
    have h3 : t ≠ "$sp," := by
      intro he; rw [he] at hmem; exact absurd hmem (by decide)
    have h4 : t ≠ "$a0," := by
      intro he; rw [he] at hmem; exact absurd hmem (by decide)
    by_cases hr1 : r = "$sp)".toList
    · have hswap : swapTok t = String.mk (o ++ '(' :: "$a0)".toList) := by
        unfold swapTok
        rw [if_neg h1, if_neg h2, if_neg h3, if_neg h4, hsp]
        subst hr1
        simp
      rw [hswap]
      have hsp2 : splitParen (String.mk (o ++ '(' :: "$a0)".toList)).toList =
          some (o, "$a0)".toList) := splitParen_append ho (by decide)
      rw [parse_offset_eq hsp2]
      subst hr1
      cases hi : parse_immediate (String.mk o) 16 with
      | error e => simp [hi] at h
      | ok off =>
        simp only [hi] at h ⊢
        have e1 : parse_register (pyStripChar ')' (String.mk "$sp)".toList)) = .ok 4 := by decide
        have e2 : parse_register (pyStripChar ')' (String.mk "$a0)".toList)) = .ok 4 := by decide
        simp only [e1] at h
        simp only [e2]
        exact h
    · by_cases hr2 : r = "$a0)".toList
      · have hswap : swapTok t = String.mk (o ++ '(' :: "$sp)".toList) := by
          unfold swapTok
          rw [if_neg h1, if_neg h2, if_neg h3, if_neg h4, hsp]
          subst hr2
          simp
        rw [hswap]
        have hsp2 : splitParen (String.mk (o ++ '(' :: "$sp)".toList)).toList =
            some (o, "$sp)".toList) := splitParen_append ho (by decide)
        rw [parse_offset_eq hsp2]
        subst hr2
        cases hi : parse_immediate (String.mk o) 16 with
        | error e => simp [hi] at h
        | ok off =>
          simp only [hi] at h ⊢
          have e1 : parse_register (pyStripChar ')' (String.mk "$a0)".toList)) = .ok 4 := by decide
          have e2 : parse_register (pyStripChar ')' (String.mk "$sp)".toList)) = .ok 4 := by decide
          simp only [e1] at h
          simp only [e2]
          exact h
      · have hr1' : ¬ r = ['$', 's', 'p', ')'] := hr1
        have hr2' : ¬ r = ['$', 'a', '0', ')'] := hr2
        have hswap : swapTok t = t := by
          unfold swapTok
          rw [if_neg h1, if_neg h2, if_neg h3, if_neg h4, hsp]
          simp [hr1', hr2']
        rw [hswap, parse_offset_eq hsp]
        exact h

/-- Instruction mnemonics (keys of `OPCODES`) are untouched by `swapTok`. -/
theorem OPCODES_swapTok_id {i : String} {c : Nat} (h : OPCODES i = some c) :
    swapTok i = i := by
  have hmem := lookupA_mem h
  have hall : ∀ p ∈ OPCODES_LIST, swapTok p.1 = p.1 := by decide
  exact hall _ hmem

/-- The empty string is not an accepted register token. -/
theorem swapTok_ne_empty {t : String} {c : Nat} (h : parse_register t = .ok c) :
    swapTok t ≠ "" := by
  intro he
  have h2 := parse_register_swapTok h
  rw [he] at h2
  rw [show parse_register "" = .error (.valueError "Unsupported register: ") from by decide] at h2
  cases h2

/-- `r_type_to_binary` is invariant under `swapTok` on its register
arguments when it succeeds. -/
theorem r_type_swapTok {i rs rt rd : String} {w : Nat}
    (h : r_type_to_binary i rs rt rd = .ok w) :
    r_type_to_binary i (swapTok rs) (swapTok rt) (swapTok rd) = .ok w := by
  unfold r_type_to_binary at h ⊢
  cases ho : OPCODES i with
  | none => simp [ho] at h
  | some opcode =>
    simp only [ho] at h ⊢
    cases hrs : parse_register rs with
    | error e => simp [hrs] at h
    | ok rs_bin =>
      simp only [hrs] at h
      simp only [parse_register_swapTok hrs]
      by_cases hrt : rt = ""
      · subst hrt
        rw [show swapTok "" = "" from by decide]
        simp only [ne_eq, not_true_eq_false, if_false] at h ⊢
        by_cases hrd : rd = ""
        · subst hrd
          rw [show swapTok "" = "" from by decide]
          exact h
        · rw [if_pos hrd] at h
          cases hprd : parse_register rd with
          | error e => simp [hprd] at h
          | ok rd_bin =>
            simp only [hprd] at h
            rw [if_pos (swapTok_ne_empty hprd)]
            simp only [parse_register_swapTok hprd]
            exact h
      · rw [if_pos hrt] at h
        cases hprt : parse_register rt with
        | error e => simp [hprt] at h
        | ok rt_bin =>
          simp only [hprt] at h
          rw [if_pos (swapTok_ne_empty hprt)]
          simp only [parse_register_swapTok hprt]
          by_cases hrd : rd = ""
          · subst hrd
            rw [show swapTok "" = "" from by decide]
            simp only [ne_eq, not_true_eq_false, if_false] at h ⊢
            exact h
          · rw [if_pos hrd] at h
            cases hprd : parse_register rd with
            | error e => simp [hprd] at h
            | ok rd_bin =>
              simp only [hprd] at h
              rw [if_pos (swapTok_ne_empty hprd)]
              simp only [parse_register_swapTok hprd]
              exact h

/-- `i_type_to_binary` is invariant under `swapTok` on its `rt` and
immediate arguments when it succeeds. -/
theorem i_type_swapTok {i rs rt imm : String} {w : Nat}
    (h : i_type_to_binary i rs rt imm = .ok w) :
    i_type_to_binary i rs (swapTok rt) (swapTok imm) = .ok w := by
  unfold i_type_to_binary at h ⊢
  cases ho : OPCODES i with
  | none => simp [ho] at h
  | some opcode =>
    simp only [ho] at h ⊢
    cases hrs : parse_register rs with
    | error e => simp [hrs] at h
    | ok rs_bin =>
      simp only [hrs] at h ⊢
      cases hrt : parse_register rt with
      | error e => simp [hrt] at h
      | ok rt_bin =>
        simp only [hrt] at h
        simp only [parse_register_swapTok hrt]
        cases hi : parse_immediate imm 16 with
        | error e => simp [hi] at h
        | ok iv =>
          simp only [hi] at h
          rw [parse_immediate_swapTok_id hi]
          simp only [hi]
          exact h

/-- The per-instruction encoding of `translate_line` is invariant under
the `$sp`/`$a0` swap on the operand tokens, provided no branch target
label is spelled like one of the swapped register tokens. -/
theorem translate_binary_swapTok {labels : LabelMap}
    (haux : ∀ l a, labels l = some a → swapTok l = l)
    {addr : Int} {line instr : String} {opcode : Nat} {rest : List String} {w : Nat}
    (h : translate_binary labels addr line instr opcode rest = .ok w) :
    translate_binary labels addr line instr opcode (rest.map swapTok) = .ok w := by
  unfold translate_binary at h ⊢
  cases hf : FUNCT_CODES instr with
  | some funct =>
    simp only [hf] at h ⊢
    by_cases hjr : instr = "jr"
    · rw [if_pos hjr] at h ⊢
      cases rest with
      | nil => simp at h
      | cons r1 rs' =>
        cases rs' with
        | nil =>
          dsimp only [List.map] at h ⊢
          cases hp : parse_register r1 with
          | error e => simp [hp] at h
          | ok rs =>
            simp only [hp] at h
            simp only [parse_register_swapTok hp]
            exact h
        | cons r2 rs'' => simp at h
    · rw [if_neg hjr] at h ⊢
      cases rest with
      | nil => simp at h
      | cons r1 rs' =>
        cases rs' with
        | nil => simp at h
        | cons r2 rs'' =>
          cases rs'' with
          | nil => simp at h
          | cons r3 t =>
            dsimp only [List.map] at h ⊢
            exact r_type_swapTok h
  | none =>
    simp only [hf] at h ⊢
    by_cases hls : instr = "lw" ∨ instr = "sw"
    · rw [if_pos hls] at h ⊢
      cases rest with
      | nil => simp at h
      | cons r1 rs' =>
        cases rs' with
        | nil => simp at h
        | cons r2 rs'' =>
          dsimp only [List.map] at h ⊢
          cases hp : parse_register r1 with
          | error e => simp [hp] at h
          | ok rt =>
            simp only [hp] at h
            simp only [parse_register_swapTok hp]
            cases hpo : parse_offset r2 with
            | error e => simp [hpo] at h
            | ok ob =>
              simp only [hpo] at h
              simp only [parse_offset_swapTok hpo]
              exact h
    · rw [if_neg hls] at h ⊢
      by_cases hac : instr = "addi" ∨ instr = "addiu" ∨ instr = "beq" ∨ instr = "bne"
      · rw [if_pos hac] at h ⊢
        cases rest with
        | nil => simp at h
        | cons r1 rs' =>
          cases rs' with
          | nil => simp at h
          | cons r2 rs'' =>
            cases rs'' with
            | nil => simp at h
            | cons x t =>
              dsimp only [List.map] at h ⊢
              cases hp2 : parse_register r2 with
              | error e => simp [hp2] at h
              | ok rs =>
                simp only [hp2] at h
                simp only [parse_register_swapTok hp2]
                cases hp1 : parse_register r1 with
                | error e => simp [hp1] at h
                | ok rt =>
                  simp only [hp1] at h
                  simp only [parse_register_swapTok hp1]
                  by_cases hbr : instr = "beq" ∨ instr = "bne"
                  · rw [if_pos hbr] at h ⊢
                    cases hlx : labels x with
                    | none => simp [hlx] at h
                    | some a =>
                      rw [haux x a hlx]
                      simp only [hlx] at h ⊢
                      exact h
                  · rw [if_neg hbr] at h ⊢
                    cases hi : parse_immediate x 16 with
                    | error e => simp [hi] at h
                    | ok iv =>
                      rw [parse_immediate_swapTok_id hi]
                      simp only [hi] at h ⊢
                      exact h
      · rw [if_neg hac] at h ⊢
        by_cases hjj : instr = "j" ∨ instr = "jal"
        · rw [if_pos hjj] at h ⊢
          cases rest with
          | nil => simp at h
          | cons l t =>
            dsimp only [List.map] at h ⊢
            cases hll : labels l with
            | none => simp [hll] at h
            | some a =>
              rw [haux l a hll]
              simp only [hll] at h ⊢
              exact h
        · rw [if_neg hjj] at h ⊢
          by_cases hsy : instr = "syscall"
          · rw [if_pos hsy] at h ⊢
            exact h
          · rw [if_neg hsy] at h ⊢
            simp at h

/-- `translate_line`'s parts-level translation is invariant under the
`$sp`/`$a0` swap applied to every token, for every accepted line
(provided no label doubles as a swapped register token). -/
theorem translateParts_swapTok {labels : LabelMap}
    (haux : ∀ l a, labels l = some a → swapTok l = l)
    {addr : Int} {line : String} {ps : List String} {w : Nat} {a : Int}
    (h : translateParts labels addr line ps = .ok (some w, a)) :
    translateParts labels addr line (ps.map swapTok) = .ok (some w, a) := by
  cases ps with
  | nil => simp [translateParts] at h
  | cons instr rest =>
    dsimp only [List.map]
    unfold translateParts at h ⊢
    dsimp only at h ⊢
    have hlen : (List.map swapTok rest).length = rest.length := List.length_map _ _
    by_cases htop : instr ≠ "syscall" ∧ rest.length < 1
    · rw [if_pos htop] at h; cases h
    · rw [if_neg htop] at h
      cases ho : OPCODES instr with
      | some opcode =>
        have hid : swapTok instr = instr := OPCODES_swapTok_id ho
        rw [hid]
        rw [if_neg (fun hc => htop ⟨hc.1, by rw [← hlen]; exact hc.2⟩)]
        simp only [ho] at h ⊢
        cases htb : translate_binary labels addr line instr opcode rest with
        | error e => simp [htb] at h
        | ok binary =>
          simp only [htb] at h
          simp only [translate_binary_swapTok haux htb]
          exact h
      | none =>
        simp only [ho] at h
        by_cases hlm : instr = "li" ∨ instr = "move"
        · have hid : swapTok instr = instr := by
            rcases hlm with h1 | h1 <;> rw [h1] <;> decide
          rw [hid]
          rw [if_neg (fun hc => htop ⟨hc.1, by rw [← hlen]; exact hc.2⟩)]
          simp only [ho]
          rw [if_pos hlm] at h ⊢
          cases rest with
          | nil => simp at h
          | cons p1 t =>
            cases t with
            | nil => simp at h
            | cons p2 t2 =>
              dsimp only [List.map] at h ⊢
              by_cases hli : instr = "li"
              · rw [if_pos hli] at h ⊢
                cases hi : i_type_to_binary "addi" "$zero" p1 p2 with
                | error e => simp [hi] at h
                | ok b =>
                  simp only [hi] at h
                  simp only [i_type_swapTok hi]
                  exact h
              · rw [if_neg hli] at h ⊢
                cases hr : r_type_to_binary "add" p2 "$zero" p1 with
                | error e => simp [hr] at h
                | ok b =>
                  simp only [hr] at h
                  have hrs := r_type_swapTok hr
                  rw [show swapTok "$zero" = "$zero" from by decide] at hrs
                  simp only [hrs]
                  exact h
        · rw [if_neg hlm] at h
          exact Except.noConfusion h

/-- Computation rule for `translateParts` on a 4-token `addi`-class
line (`addi`, `addiu`, `beq`, `bne`). -/
theorem translateParts_itype_eq (labels : LabelMap) (addr : Int)
    (line instr r1 r2 x : String) (opcode : Nat)
    (hac : instr = "addi" ∨ instr = "addiu" ∨ instr = "beq" ∨ instr = "bne")
    (hop : OPCODES instr = some opcode) :
    translateParts labels addr line [instr, r1, r2, x] =
      match parse_register r2 with
      | .error e => .error e
      | .ok rs =>
        match parse_register r1 with
        | .error e => .error e
        | .ok rt =>
          match (if instr = "beq" ∨ instr = "bne" then
              match labels x with
              | none => .error (.keyError x)
              | some a => parse_immediate_int ((a - (addr + 4)).fdiv 4) 16
            else parse_immediate x 16) with
          | .error e => .error e
          | .ok imm => .ok (some (opcode * 2 ^ 26 + rs * 2 ^ 21 + rt * 2 ^ 16 + imm), addr + 4) := by
  have hsy : ¬(instr ≠ "syscall" ∧ ([r1, r2, x] : List String).length < 1) := by
    intro hc
    exact absurd hc.2 (by simp)
  have hfu : FUNCT_CODES instr = none := by
    rcases hac with h | h | h | h <;> subst h <;> decide
  have hlw : ¬(instr = "lw" ∨ instr = "sw") := by
    rcases hac with h | h | h | h <;> subst h <;> decide
  unfold translateParts
  dsimp only
  rw [if_neg hsy, hop]
  unfold translate_binary
  simp only [hfu]
  rw [if_neg hlw, if_pos hac]
  cases hr2 : parse_register r2 with
  | error e => rfl
  | ok rs =>
    cases hr1 : parse_register r1 with
    | error e => rfl
    | ok rt =>
      cases hi : (if instr = "beq" ∨ instr = "bne" then
          match labels x with
          | none => Except.error (PyErr.keyError x)
          | some a => parse_immediate_int ((a - (addr + 4)).fdiv 4) 16
        else parse_immediate x 16) with
      | error e => rfl
      | ok imm => rfl

/-- Computation rule for `translateParts` on a 4-token three-operand
R-type line (`add`, `sub`, `and`, `or`, `slt`, `mul`). -/
theorem translateParts_rtype_eq (labels : LabelMap) (addr : Int)
    (line instr r1 r2 r3 : String) (opcode funct : Nat)
    (hop : OPCODES instr = some opcode)
    (hfu : FUNCT_CODES instr = some funct)
    (hjr : instr ≠ "jr") :
    translateParts labels addr line [instr, r1, r2, r3] =
      match r_type_to_binary instr r2 r3 r1 with
      | .error e => .error e
      | .ok binary => .ok (some binary, addr + 4) := by
  have hsy : ¬(instr ≠ "syscall" ∧ ([r1, r2, r3] : List String).length < 1) := by
    intro hc
    exact absurd hc.2 (by simp)
  unfold translateParts
  dsimp only
  rw [if_neg hsy, hop]
  unfold translate_binary
  simp only [hfu]
  rw [if_neg hjr]

/-- Register codes produced by `parse_register` are 5-bit values and
never 29 (the real MIPS `$sp`). -/
theorem parse_register_code_bound {r : String} {c : Nat}
    (h : parse_register r = .ok c) : c ≤ 31 ∧ c ≠ 29 := by
  have hmap : REGISTER_MAP (pyStripChar ',' r) = some c := by
    unfold parse_register at h
    cases hm : REGISTER_MAP (pyStripChar ',' r) with
    | none => simp [hm] at h
    | some k => simp [hm] at h; rw [h]
  have hmem := lookupA_mem hmap
  have hall : ∀ p ∈ REGISTER_MAP_LIST, p.2 ≤ 31 ∧ p.2 ≠ 29 := by decide
  exact hall _ hmem

/-- C6: assembling an `addi`-class instruction (`addi`/`addiu`) whose
immediate token parses to `n`: for `-32768 ≤ n ≤ 32767` the instruction
encodes to a 32-bit word whose low 16 bits, reinterpreted as signed
two's complement, equal `n`; for `n` outside that range the translation
fails with a range `ValueError`. -/
theorem addi_class_immediate_range (labels : LabelMap) (addr : Int)
    (line instr r1 r2 s : String) (c1 c2 : Nat) (n : Int)
    (hinstr : instr = "addi" ∨ instr = "addiu")
    (h1 : parse_register r1 = .ok c1) (h2 : parse_register r2 = .ok c2)
    (hs : pyInt s = some n) :
    ((-32768 ≤ n ∧ n ≤ 32767) →
      ∃ w, translateParts labels addr line [instr, r1, r2, s] = .ok (some w, addr + 4) ∧
        w < 2 ^ 32 ∧ toSigned 16 (w % 2 ^ 16) = n) ∧
    ((n < -32768 ∨ 32767 < n) →
      ∃ m, translateParts labels addr line [instr, r1, r2, s] = .error (.valueError m)) := by
  obtain ⟨opcode, hop, hople⟩ : ∃ o, OPCODES instr = some o ∧ o ≤ 63 := by
    rcases hinstr with h | h <;> subst h <;> exact ⟨_, rfl, by norm_num⟩
  have hac : instr = "addi" ∨ instr = "addiu" ∨ instr = "beq" ∨ instr = "bne" := by
    rcases hinstr with h | h
    · exact Or.inl h
    · exact Or.inr (Or.inl h)
  have hbr : ¬(instr = "beq" ∨ instr = "bne") := by
    rcases hinstr with h | h <;> subst h <;> decide
  have heq := translateParts_itype_eq labels addr line instr r1 r2 s opcode hac hop
  obtain ⟨hb1, _⟩ := parse_register_code_bound h1
  obtain ⟨hb2, _⟩ := parse_register_code_bound h2
  constructor
  · rintro ⟨hlo, hhi⟩
    have hin : parse_immediate s 16 = .ok ((n % (2 ^ 16 : Int)).toNat) := by
      unfold parse_immediate parse_immediate_int
      simp only [hs]
      rw [if_neg (by omega)]
    have him : (n % (2 ^ 16 : Int)).toNat < 2 ^ 16 := by omega
    refine ⟨opcode * 2 ^ 26 + c2 * 2 ^ 21 + c1 * 2 ^ 16 + (n % (2 ^ 16 : Int)).toNat, ?_, ?_, ?_⟩
    · rw [heq]
      simp only [h2]
      simp only [h1]
      rw [if_neg hbr]
      simp only [hin]
    · omega
    · have hmod : (opcode * 2 ^ 26 + c2 * 2 ^ 21 + c1 * 2 ^ 16 + (n % (2 ^ 16 : Int)).toNat) % 2 ^ 16
          = (n % (2 ^ 16 : Int)).toNat := by omega
      rw [hmod]
      unfold toSigned
      split_ifs with hlt
      · omega
      · omega
  · rintro hout
    have hin : parse_immediate s 16 =
        .error (.valueError ("Immediate value out of range for " ++ toString 16 ++ "-bit representation.")) := by
      unfold parse_immediate parse_immediate_int
      simp only [hs]
      rw [if_pos (by omega)]
    refine ⟨"Immediate value out of range for " ++ toString 16 ++ "-bit representation.", ?_⟩
    rw [heq]
    simp only [h2]
    simp only [h1]
    rw [if_neg hbr]
    simp only [hin]

/-- Witness for `addi_class_immediate_range` at `addi $t0, $zero, -5`
(in range) and `addi $t0, $zero, 40000` (out of range). -/
theorem addi_class_immediate_range_witness :
    (∃ w, translateParts emptyLabels 0 "" ["addi", "$t0,", "$zero,", "-5"] = .ok (some w, 0 + 4) ∧
      w < 2 ^ 32 ∧ toSigned 16 (w % 2 ^ 16) = -5) ∧
    (∃ m, translateParts emptyLabels 0 "" ["addi", "$t0,", "$zero,", "40000"] = .error (.valueError m)) := by
  constructor
  · exact (addi_class_immediate_range emptyLabels 0 "" "addi" "$t0," "$zero," "-5" 8 0 (-5)
      (Or.inl rfl) (by decide) (by decide) (by decide)).1 (by norm_num)
  · exact (addi_class_immediate_range emptyLabels 0 "" "addi" "$t0," "$zero," "40000" 8 0 40000
      (Or.inl rfl) (by decide) (by decide) (by decide)).2 (by norm_num)

/-- C7: for a `beq`/`bne` instruction whose target label is present in
the label table at address `av`, with word distance
`f = (av - (addr + 4)) / 4` in signed 16-bit range, pass two encodes a
word whose low 16 bits are the two's-complement representation of `f`. -/
theorem branch_offset_pc_relative (labels : LabelMap) (addr : Int)
    (line instr r1 r2 lbl : String) (c1 c2 : Nat) (av f : Int)
    (hinstr : instr = "beq" ∨ instr = "bne")
    (h1 : parse_register r1 = .ok c1) (h2 : parse_register r2 = .ok c2)
    (hl : labels lbl = some av)
    (hdist : av - (addr + 4) = 4 * f)
    (hlo : -32768 ≤ f) (hhi : f ≤ 32767) :
    ∃ w, translateParts labels addr line [instr, r1, r2, lbl] = .ok (some w, addr + 4) ∧
      w < 2 ^ 32 ∧ toSigned 16 (w % 2 ^ 16) = f := by
  obtain ⟨opcode, hop, hople⟩ : ∃ o, OPCODES instr = some o ∧ o ≤ 63 := by
    rcases hinstr with h | h <;> subst h <;> exact ⟨_, rfl, by norm_num⟩
  have hac : instr = "addi" ∨ instr = "addiu" ∨ instr = "beq" ∨ instr = "bne" :=
    Or.inr (Or.inr hinstr)
  have heq := translateParts_itype_eq labels addr line instr r1 r2 lbl opcode hac hop
  obtain ⟨hb1, _⟩ := parse_register_code_bound h1
  obtain ⟨hb2, _⟩ := parse_register_code_bound h2
  have hfd : (av - (addr + 4)).fdiv 4 = f := by
    rw [hdist]
    exact Int.mul_fdiv_cancel_left f (by norm_num)
  have hin : parse_immediate_int f 16 = .ok ((f % (2 ^ 16 : Int)).toNat) := by
    unfold parse_immediate_int
    rw [if_neg (by omega)]
  have him : (f % (2 ^ 16 : Int)).toNat < 2 ^ 16 := by omega
  refine ⟨opcode * 2 ^ 26 + c2 * 2 ^ 21 + c1 * 2 ^ 16 + (f % (2 ^ 16 : Int)).toNat, ?_, ?_, ?_⟩
  · rw [heq]
    simp only [h2]
    simp only [h1]
    rw [if_pos hinstr]
    simp only [hl]
    rw [hfd]
    simp only [hin]
  · omega
  · have hmod : (opcode * 2 ^ 26 + c2 * 2 ^ 21 + c1 * 2 ^ 16 + (f % (2 ^ 16 : Int)).toNat) % 2 ^ 16
        = (f % (2 ^ 16 : Int)).toNat := by omega
    rw [hmod]
    unfold toSigned
    split_ifs with hlt
    · omega
    · omega

/-- Witness for `branch_offset_pc_relative`: `beq $t0, $t1, loop` at
address 8 with `loop` at address 0, offset `(0 - 12) / 4 = -3`. -/
theorem branch_offset_pc_relative_witness :
    ∃ w, translateParts (labelInsert "loop" 0 emptyLabels) 8 "" ["beq", "$t0,", "$t1,", "loop"]
        = .ok (some w, 8 + 4) ∧ w < 2 ^ 32 ∧ toSigned 16 (w % 2 ^ 16) = -3 :=
  branch_offset_pc_relative (labelInsert "loop" 0 emptyLabels) 8 "" "beq" "$t0," "$t1," "loop"
    8 9 0 (-3) (Or.inl rfl) (by decide) (by decide) (by decide) (by norm_num)
    (by norm_num) (by norm_num)

/-- C8: the pseudo-instructions `li` and `move` are rewritten at encode
time into exactly one real instruction: `li r, imm` translates exactly
like `addi r, $zero, imm`, `move dst, src` exactly like
`add dst, src, $zero` (same word, same errors), and a successful
translation advances the address counter by exactly 4 — the same as for
the corresponding real instruction. -/
theorem li_move_single_real_instruction (labels : LabelMap) (addr : Int)
    (line1 line2 p1 p2 : String) :
    (translateParts labels addr line1 ["li", p1, p2] =
      translateParts labels addr line2 ["addi", p1, "$zero", p2]) ∧
    (translateParts labels addr line1 ["move", p1, p2] =
      translateParts labels addr line2 ["add", p1, p2, "$zero"]) ∧
    (∀ w a, translateParts labels addr line1 ["li", p1, p2] = .ok (some w, a) → a = addr + 4) ∧
    (∀ w a, translateParts labels addr line1 ["move", p1, p2] = .ok (some w, a) → a = addr + 4) := by
  have hli : translateParts labels addr line1 ["li", p1, p2] =
      match i_type_to_binary "addi" "$zero" p1 p2 with
      | .error e => .error e
      | .ok binary => .ok (some binary, addr + 4) := by
    unfold translateParts
    dsimp only
    rw [if_neg (by simp)]
    rw [show OPCODES "li" = none from by decide]
    rw [if_pos (Or.inl rfl)]
    rw [if_pos rfl]
  have hmove : translateParts labels addr line1 ["move", p1, p2] =
      match r_type_to_binary "add" p2 "$zero" p1 with
      | .error e => .error e
      | .ok binary => .ok (some binary, addr + 4) := by
    unfold translateParts
    dsimp only
    rw [if_neg (by simp)]
    rw [show OPCODES "move" = none from by decide]
    rw [if_pos (Or.inr rfl)]
    rw [if_neg (by decide : ¬("move" : String) = "li")]
  have haddi : translateParts labels addr line2 ["addi", p1, "$zero", p2] =
      match i_type_to_binary "addi" "$zero" p1 p2 with
      | .error e => .error e
      | .ok binary => .ok (some binary, addr + 4) := by
    have heq := translateParts_itype_eq labels addr line2 "addi" p1 "$zero" p2 8
      (Or.inl rfl) (by decide)
    rw [heq]
    rw [show parse_register "$zero" = .ok 0 from by decide]
    unfold i_type_to_binary
    rw [show OPCODES "addi" = some 8 from by decide]
    rw [show parse_register "$zero" = .ok 0 from by decide]
    rw [if_neg (by decide : ¬(("addi" : String) = "beq" ∨ ("addi" : String) = "bne"))]
    cases hp1 : parse_register p1 with
    | error e => rfl
    | ok rt =>
      cases hi : parse_immediate p2 16 with
      | error e => rfl
      | ok imm => rfl
  have hadd : translateParts labels addr line2 ["add", p1, p2, "$zero"] =
      match r_type_to_binary "add" p2 "$zero" p1 with
      | .error e => .error e
      | .ok binary => .ok (some binary, addr + 4) :=
    translateParts_rtype_eq labels addr line2 "add" p1 p2 "$zero" 0 32
      (by decide) (by decide) (by decide)
  refine ⟨?_, ?_, ?_, ?_⟩
  · rw [hli, haddi]
  · rw [hmove, hadd]
  · intro w a h
    rw [hli] at h
    cases hi : i_type_to_binary "addi" "$zero" p1 p2 with
    | error e => simp [hi] at h
    | ok b =>
      simp only [hi] at h
      simp only [Except.ok.injEq, Prod.mk.injEq] at h
      exact h.2.symm
  · intro w a h
    rw [hmove] at h
    cases hr : r_type_to_binary "add" p2 "$zero" p1 with
    | error e => simp [hr] at h
    | ok b =>
      simp only [hr] at h
      simp only [Except.ok.injEq, Prod.mk.injEq] at h
      exact h.2.symm

/-- Witness for `li_move_single_real_instruction` at `li $t0, 5` and
`move $t0, $t1`, checking the translated words and the address
advance. -/
theorem li_move_single_real_instruction_witness :
    translateParts emptyLabels 0 "li $t0, 5" ["li", "$t0,", "5"] =
      translateParts emptyLabels 0 "addi $t0, $zero, 5" ["addi", "$t0,", "$zero", "5"] ∧
    (4 : Int) = 0 + 4 := by
  constructor
  · exact (li_move_single_real_instruction emptyLabels 0 "li $t0, 5" "addi $t0, $zero, 5"
      "$t0," "5").1
  · exact (li_move_single_real_instruction emptyLabels 0 "li $t0, 5" "addi $t0, $zero, 5"
      "$t0," "5").2.2.1 537395205 4 (by decide)

/-- C10: the register-name table maps both `$sp` and `$a0` to the same
5-bit code `00100` (= 4), no accepted register ever encodes to MIPS
register 29, and consequently for every accepted instruction line the
produced 32-bit word is unchanged when every `$sp` operand token is
replaced by `$a0` and vice versa (provided no branch label is spelled
like such a token). -/
theorem sp_a0_same_encoding (labels : LabelMap) (addr : Int) (line : String)
    (ps : List String) (w : Nat) (a : Int)
    (hlab : ∀ l adr, labels l = some adr → swapTok l = l)
    (h : translateParts labels addr line ps = .ok (some w, a)) :
    REGISTER_MAP "$sp" = some 4 ∧ REGISTER_MAP "$a0" = some 4 ∧
    (∀ r c, parse_register r = .ok c → c ≠ 29) ∧
    translateParts labels addr line (ps.map swapTok) = .ok (some w, a) := by
  refine ⟨by decide, by decide, ?_, translateParts_swapTok hlab h⟩
  intro r c hr
  exact (parse_register_code_bound hr).2

/-- Witness for `sp_a0_same_encoding`: `add $t0, $t1, $sp` and its
swapped form `add $t0, $t1, $a0` produce the same word. -/
theorem sp_a0_same_encoding_witness :
    translateParts emptyLabels 0 "" (["add", "$t0,", "$t1,", "$sp"].map swapTok)
      = .ok (some 19152928, 0 + 4) := by
  have h : translateParts emptyLabels 0 "" ["add", "$t0,", "$t1,", "$sp"]
      = .ok (some 19152928, 0 + 4) := by decide
  exact (sp_a0_same_encoding emptyLabels 0 "" _ _ _
    (fun l adr hl => Option.noConfusion hl) h).2.2.2

/-- C1 counterexample: pass two does NOT fail fast.  On a three-line
input whose middle line uses the unmapped register `$t9`, the error is
caught, the line is skipped, and the remaining line is still translated
and written: the output holds the words of lines 1 and 3 — partial
binary output after a failed line, contradicting the claim that the
remainder of pass two is aborted and no partial output is written. -/
theorem pass_two_no_fail_fast :
    pass_two emptyLabels ["addi $t0, $zero, 1", "addi $t9, $zero, 2", "addi $t1, $zero, 3"]
      = ([537395201, 537460739], none) := by decide

/-- C1 amended: when a line fails to translate with a `ValueError`
(unsupported register, bad immediate, unknown instruction, ...),
`pass_two` reports the error, emits no word for that line, leaves the
address counter unchanged, and continues with the remaining lines
exactly as if the failed line were absent. -/
theorem pass_two_error_skips_line (labels : LabelMap) (addr : Int) (l : String)
    (ls : List String) (m : String)
    (h : translate_line labels addr (pyStrip (stripComment l)) = .error (.valueError m)) :
    pass_two_lines labels addr (l :: ls) = pass_two_lines labels addr ls := by
  conv_lhs => unfold pass_two_lines
  dsimp only
  by_cases hskip : pyStrip (stripComment l) = "" ∨
      pyStartsWith (pyStrip (stripComment l)) "." = true ∨
      ':' ∈ (pyStrip (stripComment l)).toList
  · rw [if_pos hskip]
  · rw [if_neg hskip]
    simp only [h]

/-- Witness for `pass_two_error_skips_line`: a failing `$t9` line is
skipped and processing continues. -/
theorem pass_two_error_skips_line_witness :
    pass_two_lines emptyLabels 0 ["addi $t9, $zero, 2", "syscall"] =
      pass_two_lines emptyLabels 0 ["syscall"] :=
  pass_two_error_skips_line emptyLabels 0 "addi $t9, $zero, 2" ["syscall"]
    "Unsupported register: $t9" (by decide)

/-- C5 counterexample: the label table survives across assembler
invocations and tolerates duplicate definitions.  A first invocation
defines `dup` twice (the second definition, at address 4, silently
wins); a second invocation on an input defining only `bar` still sees
`dup ↦ 4` in its table — so after pass one the table does NOT contain
exactly the labels of that input, and labels need not be defined
exactly once. -/
theorem pass_one_stale_labels :
    (match pass_one emptyLabels emptyData ["dup:", "add $t0, $t1, $t2", "dup:"] with
      | .ok st1 =>
        (match pass_one st1.labels st1.data ["bar:"] with
          | .ok st2 => (st2.labels "dup", st2.labels "bar")
          | .error _ => (none, none))
      | .error _ => (none, none)) = (some 4, some 0) := by decide

/-- One `pass_one` loop iteration relates a run started with label
table `lab1 = lab0 ⊕ t` (new bindings shadow the stale table `t`) to
the run started with `lab0`: control flow is identical and the relation
is preserved. -/
theorem pass_one_line_rel (t lab1 lab0 : LabelMap) (d : DataMap) (ind : Bool)
    (ad : Int) (l : String)
    (hl : ∀ L, lab1 L = match lab0 L with | some v => some v | none => t L) :
    match pass_one_line ⟨lab1, d, ind, ad⟩ l, pass_one_line ⟨lab0, d, ind, ad⟩ l with
    | .ok r1, .ok r0 =>
        r1.data = r0.data ∧ r1.in_data = r0.in_data ∧ r1.addr = r0.addr ∧
          (∀ L, r1.labels L = match r0.labels L with | some v => some v | none => t L)
    | .error e1, .error e0 => e1 = e0
    | _, _ => False := by
  unfold pass_one_line
  dsimp only
  by_cases hempty : pyStrip (stripComment l) = ""
  · simp only [if_pos hempty]
    exact ⟨by trivial, by trivial, by trivial, hl⟩
  · simp only [if_neg hempty]
    by_cases hdata : pyStartsWith (pyStrip (stripComment l)) ".data" = true
    · simp only [if_pos hdata]
      exact ⟨by trivial, by trivial, by trivial, hl⟩
    · simp only [if_neg hdata]
      by_cases htext : pyStartsWith (pyStrip (stripComment l)) ".text" = true
      · simp only [if_pos htext]
        exact ⟨by trivial, by trivial, by trivial, hl⟩
      · simp only [if_neg htext]
        by_cases hglobl : pyStartsWith (pyStrip (stripComment l)) ".globl" = true
        · simp only [if_pos hglobl]
          exact ⟨by trivial, by trivial, by trivial, hl⟩
        · simp only [if_neg hglobl]
          by_cases hind : ind = true
          · simp only [if_pos hind]
            cases hps : pySplitWs (pyStrip (stripComment l)) with
            | nil => exact ⟨by trivial, by trivial, by trivial, hl⟩
            | cons p0 t0 =>
              cases t0 with
              | nil => exact ⟨by trivial, by trivial, by trivial, hl⟩
              | cons p1 t1 =>
                cases t1 with
                | nil => exact ⟨by trivial, by trivial, by trivial, hl⟩
                | cons p2 t2 =>
                  by_cases hw : p1 = ".word"
                  · simp only [if_pos hw]
                    cases hpi : pyInt (pyJoin " " (p2 :: t2)) with
                    | none => rfl
                    | some n => exact ⟨by trivial, by trivial, by trivial, hl⟩
                  · simp only [if_neg hw]
                    by_cases ha : p1 = ".asciiz"
                    · simp only [if_pos ha]
                      exact ⟨by trivial, by trivial, by trivial, hl⟩
                    · simp only [if_neg ha]
                      exact ⟨by trivial, by trivial, by trivial, hl⟩
          · simp only [if_neg hind]
            by_cases hcolon : ':' ∈ (pyStrip (stripComment l)).toList
            · simp only [if_pos hcolon]
              refine ⟨by trivial, by trivial, by trivial, ?_⟩
              intro L
              unfold labelInsert
              by_cases hLk : L = String.mk ((pyStrip (stripComment l)).toList.takeWhile (fun c => c ≠ ':'))
              · simp only [if_pos hLk]
              · simp only [if_neg hLk]
                exact hl L
            · simp only [if_neg hcolon]
              exact ⟨by trivial, by trivial, by trivial, hl⟩

/-- The `pass_one` loop preserves the stale-table relation over any
list of input lines. -/
theorem pass_one_lines_rel (t : LabelMap) (lines : List String) :
    ∀ (lab1 lab0 : LabelMap) (d : DataMap) (ind : Bool) (ad : Int),
    (∀ L, lab1 L = match lab0 L with | some v => some v | none => t L) →
    match pass_one_lines ⟨lab1, d, ind, ad⟩ lines, pass_one_lines ⟨lab0, d, ind, ad⟩ lines with
    | .ok r1, .ok r0 =>
        r1.data = r0.data ∧ r1.in_data = r0.in_data ∧ r1.addr = r0.addr ∧
          (∀ L, r1.labels L = match r0.labels L with | some v => some v | none => t L)
    | .error e1, .error e0 => e1 = e0
    | _, _ => False := by
  induction lines with
  | nil =>
    intro lab1 lab0 d ind ad hl
    exact ⟨rfl, rfl, rfl, hl⟩
  | cons l ls ih =>
    intro lab1 lab0 d ind ad hl
    have hstep := pass_one_line_rel t lab1 lab0 d ind ad l hl
    unfold pass_one_lines
    cases hp1 : pass_one_line ⟨lab1, d, ind, ad⟩ l with
    | error e1 =>
      cases hp0 : pass_one_line ⟨lab0, d, ind, ad⟩ l with
      | error e0 =>
        simp only [hp1, hp0] at hstep ⊢
        exact hstep
      | ok r0 =>
        simp only [hp1, hp0] at hstep
    | ok r1 =>
      cases hp0 : pass_one_line ⟨lab0, d, ind, ad⟩ l with
      | error e0 =>
        simp only [hp1, hp0] at hstep
      | ok r0 =>
        simp only [hp1, hp0] at hstep
        obtain ⟨l1, d1, i1, a1⟩ := r1
        obtain ⟨l0, d0, i0, a0⟩ := r0
        obtain ⟨hd, hi, ha, hlr⟩ := hstep
        dsimp only at hd hi ha hlr
        subst hd
        subst hi
        subst ha
        exact ih l1 l0 _ _ _ hlr

/-- C5 amended: `pass_one` resets the address counter and the
data-section flag but never clears the label table: after a run, a
label's entry is its (last) definition in this input when it has one,
and otherwise whatever the table already held from earlier invocations
— stale entries survive. -/
theorem pass_one_labels_accumulate (t : LabelMap) (d : DataMap) (lines : List String)
    (st1 st0 : PassOneState)
    (h1 : pass_one t d lines = .ok st1)
    (h0 : pass_one emptyLabels d lines = .ok st0) (L : String) :
    st1.labels L = match st0.labels L with | some v => some v | none => t L := by
  have hrel := pass_one_lines_rel t lines t emptyLabels d false 0 (fun _ => rfl)
  unfold pass_one at h1 h0
  rw [h1, h0] at hrel
  exact hrel.2.2.2 L

/-- Witness for `pass_one_labels_accumulate`: a run over `["bar:"]`
starting from a table holding `foo ↦ 8` keeps the stale `foo` entry. -/
theorem pass_one_labels_accumulate_witness :
    (labelInsert "bar" 0 (labelInsert "foo" 8 emptyLabels)) "foo"
      = match (labelInsert "bar" 0 emptyLabels) "foo" with
        | some v => some v
        | none => (labelInsert "foo" 8 emptyLabels) "foo" :=
  pass_one_labels_accumulate (labelInsert "foo" 8 emptyLabels) emptyData ["bar:"]
    ⟨labelInsert "bar" 0 (labelInsert "foo" 8 emptyLabels), emptyData, false, 0⟩
    ⟨labelInsert "bar" 0 emptyLabels, emptyData, false, 0⟩ rfl rfl "foo"

/-- C3 counterexample: at the relational-expression level the parser
does NOT accept `<=` (nor `>`, `>=`): on the token stream for `1 <= 2`,
`parse_rexp` returns the bare `Number 1` with the cursor still before
the `<=` token — no `RelationalOp` node is built, contradicting the
claim that all six relational operators are accepted there. -/
theorem parse_rexp_leq_not_relational :
    parse_rexp [("NUMBER", "1"), ("OPERATOR", "<="), ("NUMBER", "2")] 10 0
      = .ok (.number 1, 1) := by
  simp [parse_rexp, parse_rexp_loop, parse_aexp, parse_aexp_loop, parse_mexp, parse_mexp_loop,
      parse_sexp, parse_pexp, parse_pexp_loop, parse_expression, parse_expression_loop,
      parse_exps, parse_exps_loop, consume, current_token, pyInt, pyDigits]

/-- C3 amended: the relational level accepts exactly `<`, `==` and
`!=`, folding repeated occurrences left-to-right into `RelationalOp`
nodes; `<=`, `>` and `>=` are left unconsumed (the relational loop
stops in front of them). -/
theorem parse_rexp_three_ops (o1 o2 : String)
    (h1 : o1 = "<" ∨ o1 = "==" ∨ o1 = "!=")
    (h2 : o2 = "<" ∨ o2 = "==" ∨ o2 = "!=") :
    (parse_rexp [("NUMBER", "1"), ("OPERATOR", o1), ("NUMBER", "2"), ("OPERATOR", o2), ("NUMBER", "3")] 10 0
      = .ok (.relationalOp o2 (.relationalOp o1 (.number 1) (.number 2)) (.number 3), 5)) ∧
    (∀ o, (o = "<=" ∨ o = ">" ∨ o = ">=") →
      parse_rexp [("NUMBER", "1"), ("OPERATOR", o), ("NUMBER", "2")] 10 0 = .ok (.number 1, 1)) := by
  constructor
  · rcases h1 with h | h | h <;> rcases h2 with g | g | g <;> subst h <;> subst g <;>
      simp [parse_rexp, parse_rexp_loop, parse_aexp, parse_aexp_loop, parse_mexp, parse_mexp_loop,
      parse_sexp, parse_pexp, parse_pexp_loop, parse_expression, parse_expression_loop,
      parse_exps, parse_exps_loop, consume, current_token, pyInt, pyDigits]
  · intro o ho
    rcases ho with h | h | h <;> subst h <;>
      simp [parse_rexp, parse_rexp_loop, parse_aexp, parse_aexp_loop, parse_mexp, parse_mexp_loop,
      parse_sexp, parse_pexp, parse_pexp_loop, parse_expression, parse_expression_loop,
      parse_exps, parse_exps_loop, consume, current_token, pyInt, pyDigits]

/-- Witness for `parse_rexp_three_ops` at `1 < 2 == 3` and `1 <= 2`. -/
theorem parse_rexp_three_ops_witness :
    (parse_rexp [("NUMBER", "1"), ("OPERATOR", "<"), ("NUMBER", "2"), ("OPERATOR", "=="), ("NUMBER", "3")] 10 0
      = .ok (.relationalOp "==" (.relationalOp "<" (.number 1) (.number 2)) (.number 3), 5)) ∧
    (parse_rexp [("NUMBER", "1"), ("OPERATOR", ">="), ("NUMBER", "2")] 10 0 = .ok (.number 1, 1)) :=
  ⟨(parse_rexp_three_ops "<" "==" (Or.inl rfl) (Or.inr (Or.inl rfl))).1,
   (parse_rexp_three_ops "<" "==" (Or.inl rfl) (Or.inr (Or.inl rfl))).2 ">=" (Or.inr (Or.inr rfl))⟩

/-- C2: semantic analysis does NOT fail on cyclic inheritance — the
cycle detector exists but is dead code.  `analyze` on a program with
`class A extends B {}` and `class B extends A {}` succeeds (it never
invokes `resolve_inheritance`), while `resolve_inheritance` itself,
run on the very symbol table `analyze` collects, does detect the cycle
and terminates with the cyclic-inheritance error. -/
theorem analyze_accepts_cyclic_inheritance :
    analyze 10 cyclicProgram = .ok cyclicProgram ∧
    (match collect_declarations cyclicProgram with
      | .ok tbl => resolve_inheritance 10 tbl
      | .error e => .error e)
      = .error "Cyclic inheritance detected in class 'A'." := by
  constructor
  · simp [analyze, collect_declarations, collect_classes, collect_one_class,
      collect_class_methods, params_dict, alookup, ainsert, aupdate,
      validate_program, validate_main_class, validate_classes, validate_class,
      validate_methods, check_command_list, cyclicProgram, mtInsert, emptyMT]
  · rfl

/-- C9 counterexample: a program that uses the identifier
`current_class` in an expression with no declaration anywhere passes
semantic analysis, because `validate_method` seeds the method table
with the key `"current_class"` (bound to the enclosing class name), so
that identifier is always considered declared. -/
theorem analyze_accepts_undeclared_current_class :
    analyze 10 currentClassProgram = .ok currentClassProgram := by
  simp [analyze, collect_declarations, collect_classes, collect_one_class,
    collect_class_methods, params_dict, validate_program, validate_main_class,
    validate_classes, validate_class, validate_methods, validate_method,
    buildMethodTable, build_locals, check_command_list, check_command,
    check_expression, get_expression_type, mtInsert, emptyMT, alookup, ainsert,
    aupdate, currentClassProgram]

/-- Parameters not naming `x` leave the method table unchanged at `x`. -/
theorem foldl_mtInsert_params_not_mem (ps : List MJParam) (mt0 : MT) (x : String)
    (hx : x ∉ ps.map MJParam.name) :
    (ps.foldl (fun t p => mtInsert p.name p.param_type t) mt0) x = mt0 x := by
  induction ps generalizing mt0 with
  | nil => rfl
  | cons p ps ih =>
    have hx1 : ¬ x = p.name := by
      intro he
      exact hx (by rw [List.map_cons]; exact he ▸ List.mem_cons_self _ _)
    have hx2 : x ∉ ps.map MJParam.name := by
      intro hm
      exact hx (by rw [List.map_cons]; exact List.mem_cons_of_mem _ hm)
    rw [List.foldl_cons, ih _ hx2]
    unfold mtInsert
    rw [if_neg hx1]

/-- Locals not naming `x` leave the method table unchanged at `x`. -/
theorem build_locals_not_mem (mn x : String) :
    ∀ (vs : List MJVar) (mt0 mt : MT), build_locals mn vs mt0 = .ok mt →
      x ∉ vs.map MJVar.name → mt x = mt0 x := by
  intro vs
  induction vs with
  | nil =>
    intro mt0 mt h _
    unfold build_locals at h
    injection h with h
    rw [← h]
  | cons v vs ih =>
    intro mt0 mt h hx
    unfold build_locals at h
    by_cases hd : (mt0 v.name).isSome = true
    · rw [if_pos hd] at h; cases h
    · rw [if_neg hd] at h
      have hx1 : ¬ x = v.name := by
        intro he
        exact hx (by rw [List.map_cons]; exact he ▸ List.mem_cons_self _ _)
      have hx2 : x ∉ vs.map MJVar.name := by
        intro hm
        exact hx (by rw [List.map_cons]; exact List.mem_cons_of_mem _ hm)
      rw [ih (mtInsert v.name v.var_type mt0) mt h hx2]
      unfold mtInsert
      rw [if_neg hx1]

/-- C9 amended: an identifier used in an expression with no prior
declaration as a parameter or local variable of the enclosing method —
and not spelled `current_class`, the internal key `validate_method`
pre-binds to the enclosing class name — is rejected by the scope check
with an undeclared-variable error naming that identifier. -/
theorem undeclared_identifier_rejected (symtab : SymTable) (fuel : Nat) (class_name : String)
    (m : MJMethod) (mt : MT) (name : String)
    (hmt : buildMethodTable class_name m = .ok mt)
    (hnc : name ≠ "current_class")
    (hp : name ∉ m.parameters.map MJParam.name)
    (hl : name ∉ m.local_variables.map MJVar.name) :
    check_expression symtab (fuel + 1) mt (.identifier name)
      = .error ("Variable '" ++ name ++ "' is not declared.") := by
  have hnone : mt name = none := by
    unfold buildMethodTable at hmt
    rw [build_locals_not_mem m.name name m.local_variables _ mt hmt hl,
      foldl_mtInsert_params_not_mem m.parameters _ name hp]
    unfold mtInsert emptyMT
    rw [if_neg hnc]
  simp [check_expression, hnone]

/-- Witness for `undeclared_identifier_rejected`: in a method with one
local `x`, the undeclared identifier `y` is reported by name. -/
theorem undeclared_identifier_rejected_witness :
    check_expression [] 1 (mtInsert "x" "int" (mtInsert "current_class" "C" emptyMT))
      (.identifier "y") = .error "Variable 'y' is not declared." :=
  undeclared_identifier_rejected [] 0 "C"
    ⟨"m", "int", [], [⟨"x", "int"⟩], [], .identifier "x"⟩ _ "y" rfl
    (by decide) (by simp) (by simp)

/-- C4: for `new int[n]` the generated code does request a heap
allocation of exactly 4·n + 4 bytes, but the value stored into the
first word of the block — and hence the value a subsequent array-length
access reads back — is that byte count 4·n + 4, not the element count
n: the `ArrayInstantiation` branch overwrites the size register in
place (`mul size_reg, size_reg, 4` then `addiu size_reg, size_reg, 4`)
before the `sw` meant to store the length, and for no integer n does
4·n + 4 equal n. -/
theorem array_instantiation_stores_byte_size (n b : Int) :
    ∃ st : CGState,
      generate_expression (.arrayLength (.arrayInstantiation (.number n))) initCGState
        = .ok ("$t0", st)
      ∧ (execList (initMState b) st.text_section).allocs = [4 * n + 4]
      ∧ (execList (initMState b) st.text_section).mem b = 4 * n + 4
      ∧ (execList (initMState b) st.text_section).regs "$t0" = 4 * n + 4
      ∧ 4 * n + 4 ≠ n := by
  refine ⟨_, rfl, ?_, ?_, ?_, ?_⟩ <;>
    simp [execList, exec, setReg, initMState, emit, free_register, generate_expression,
      allocate_register, allocate_register_from, registers, initCGState] <;>
    omega
example : (pass_one emptyLabels emptyData ["dup:", "add $t0, $t1, $t2", "dup:"]).map (fun st => st.labels "dup") = .ok (some 4) := by decide
